import Mathlib

/-!
Verification development for the Alune TFT bot (state-detection and decision engine).

This file shallowly embeds the Python sources:
  * `alune/screen.py`   — template-matching probes over correlation surfaces,
  * `alune/images.py`   — the button/region catalog,
  * `alune/tft/game.py` — the state classifier and the in-match decision engine,
  * `alune/tft/app.py`  — the queue negotiator,
  * `alune/adb.py`      — the screen-capture freshness check,
and proves or refutes the specification claims about them.

Modelling conventions:
  * A `Frame` is an opaque captured screen image; `cv2.matchTemplate` is an external
    primitive (the spec declares pixel-level matching a non-goal), so the environment
    `Env` supplies, for every frame/template/region triple, the correlation `Surface`
    it would produce.  Scores are rationals (the code only compares them).
  * `numpy` slice assignment with possibly negative bounds is modelled exactly
    (`pySliceBound`): a negative bound wraps by the axis length, then clamps.
  * Unbounded Python `while` loops are modelled with explicit fuel; `none` means the
    loop did not reach its exit condition within the given fuel.
  * `random.Random` draws are modelled by a deterministic oracle indexed by a draw
    counter, threaded through the decision functions in program order.
-/

namespace Alune

/-- A coordinate on the screen (`images.py`, class `Coordinate`). -/
structure Coordinate where
  x : Nat
  y : Nat
deriving DecidableEq

/-- A rectangle given by two coordinate pairs (`images.py`, class `BoundingBox`). -/
structure BoundingBox where
  min_x : Nat
  min_y : Nat
  max_x : Nat
  max_y : Nat
deriving DecidableEq

/-- `BoundingBox.is_inside` from `images.py`:
`min_x <= c.x <= max_x and min_y <= c.y <= max_y`. -/
def BoundingBox.is_inside (b : BoundingBox) (c : Coordinate) : Bool :=
  decide (b.min_x ≤ c.x ∧ c.x ≤ b.max_x ∧ b.min_y ≤ c.y ∧ c.y ≤ b.max_y)

/-- A reference template image (`cv2.imread` result).  The pixel content is opaque;
`id` stands for the file content identity, and the shape fields mirror
`image_to_find.shape[:2] = (height, width)`. -/
structure Template where
  id : String
  height : Nat
  width : Nat
deriving DecidableEq

/-- A captured screen frame.  Its pixel content is opaque; classification only ever
consumes frames through the correlation oracle in `Env`. -/
structure Frame where
  id : Nat
deriving DecidableEq

/-- The correlation surface returned by `cv2.matchTemplate(crop, image_to_find,
cv2.TM_CCOEFF_NORMED)`: a 2-D array of scores, indexed (row, column). -/
structure Surface where
  rows : Nat
  cols : Nat
  val : Nat → Nat → ℚ

/-- The external collaborators of `screen.py`: `cv2.imread` (template store) and
`cv2.matchTemplate` on the optionally cropped frame. -/
structure Env where
  loadImage : String → Option Template
  matchTemplate : Frame → Template → Option BoundingBox → Surface

/-- Events emitted through `loguru.logger` that the claims mention. -/
inductive LogEvent where
  | warnMissingImage (path : String)
  | warnStaleFrames
deriving DecidableEq

/-- An image search result (`screen.py`, dataclass `ImageSearchResult`). -/
structure ImageSearchResult where
  x : Nat
  y : Nat
  width : Nat
  height : Nat
deriving DecidableEq

/-- `ImageSearchResult.get_middle` from `screen.py`. -/
def ImageSearchResult.get_middle (r : ImageSearchResult) : Coordinate :=
  ⟨r.x + r.width / 2, r.y + r.height / 2⟩

/-- A clickable-only button (`images.py`, class `ClickButton`). -/
structure ClickButton where
  click_box : BoundingBox
deriving DecidableEq

/-- A recognizable clickable button (`images.py`, class `ImageButton`). -/
structure ImageButton where
  click_box : BoundingBox
  capture_area : Option BoundingBox
  image_path : String
deriving DecidableEq

/-- Normalisation of one Python/numpy slice bound over an axis of length `len`:
a negative bound has the length added (then clamps at 0), a non-negative bound
clamps at the length.  This is exactly the semantics of
`search_result[height_from:height_to, width_from:width_to]` in `screen.py`. -/
def pySliceBound (len : Nat) (v : Int) : Nat :=
  if v < 0 then (v + len).toNat else min v.toNat len

/-- Index `i` lies in the Python slice `start:stop` of an axis of length `len`. -/
def inPySlice (len : Nat) (start stop : Int) (i : Nat) : Prop :=
  pySliceBound len start ≤ i ∧ i < pySliceBound len stop

instance (len : Nat) (start stop : Int) (i : Nat) : Decidable (inPySlice len start stop i) := by
  unfold inPySlice; infer_instance

/-- Scan order of `cv2.minMaxLoc`: row major, as (row, column) pairs. -/
def scanPositions (rows cols : Nat) : List (Nat × Nat) :=
  (List.range rows).flatMap fun r => (List.range cols).map fun c => (r, c)

/-- One comparison step of the `cv2.minMaxLoc` scan: keep the strictly greater value. -/
def mmStep (s : Surface) (best : (Nat × Nat) × ℚ) (p : Nat × Nat) : (Nat × Nat) × ℚ :=
  if best.2 < s.val p.1 p.2 then (p, s.val p.1 p.2) else best

/-- The max part of `cv2.minMaxLoc`: best position (row, column) and best score.
OpenCV keeps the first strictly greater value in scan order. -/
def minMaxLocMax (s : Surface) : (Nat × Nat) × ℚ :=
  (scanPositions s.rows s.cols).foldl (mmStep s) ((0, 0), s.val 0 0)

/-- Default precision of `get_on_screen` and `get_button_on_screen` (`screen.py`). -/
def defaultPrecision : ℚ := mkRat 8 10

/-- Precision used by `take_game_decision` for the ambiguous choice prompts
(`tft/game.py`, the `choose_one_hidden` / `choose_one` probes). -/
def choicePromptPrecision : ℚ := mkRat 9 10

/-- `screen.get_image_from_path`: `cv2.imread`, with a warning when the file is
missing or unreadable. -/
def get_image_from_path (env : Env) (path : String) : Option Template × List LogEvent :=
  match env.loadImage path with
  | none => (none, [LogEvent.warnMissingImage path])
  | some t => (some t, [])

/-- The x/y offset added to a match location when a bounding box cropped the frame. -/
def bboxOffX : Option BoundingBox → Nat
  | some b => b.min_x
  | none => 0

/-- The y offset counterpart of `bboxOffX`. -/
def bboxOffY : Option BoundingBox → Nat
  | some b => b.min_y
  | none => 0

/-- `screen.get_on_screen`: load the template, correlate, and return the best-scoring
location iff its score is at least `precision` (the code returns `None` when
`max_precision < precision`). -/
def get_on_screen (env : Env) (image : Frame) (path : String)
    (bounding_box : Option BoundingBox) (precision : ℚ) :
    Option ImageSearchResult × List LogEvent :=
  match get_image_from_path env path with
  | (none, logs) => (none, logs)
  | (some image_to_find, logs) =>
    let search_result := env.matchTemplate image image_to_find bounding_box
    let m := minMaxLocMax search_result
    if m.2 < precision then (none, logs)
    else
      (some { x := m.1.2 + bboxOffX bounding_box
              y := m.1.1 + bboxOffY bounding_box
              height := image_to_find.height
              width := image_to_find.width }, logs)

/-- `screen.get_button_on_screen`: probe for a button template inside its capture area. -/
def get_button_on_screen (env : Env) (image : Frame) (button : ImageButton)
    (precision : ℚ) : Option ImageSearchResult × List LogEvent :=
  get_on_screen env image button.image_path button.capture_area precision

/-- The set of positions (row, column) assigned by the slice write
`search_result[height_from:height_to, width_from:width_to] = 0` of
`get_all_on_screen`, where `height_from = y - th // 2`, `height_to = y + th // 2 + 1`
and similarly for the width, under exact numpy slice semantics (negative bounds
wrap by the axis length). -/
def zeroSet (rows cols : Nat) (loc : Nat × Nat) (th tw : Nat) (p : Nat × Nat) : Prop :=
  inPySlice rows ((loc.1 : Int) - (th / 2 : Nat)) ((loc.1 : Int) + (th / 2 : Nat) + 1) p.1 ∧
  inPySlice cols ((loc.2 : Int) - (tw / 2 : Nat)) ((loc.2 : Int) + (tw / 2 : Nat) + 1) p.2

instance (rows cols : Nat) (loc : Nat × Nat) (th tw : Nat) (p : Nat × Nat) :
    Decidable (zeroSet rows cols loc th tw p) := by
  unfold zeroSet; infer_instance

/-- The zero-out step of `get_all_on_screen`: overwrite the slice around the matched
location with zeroes. -/
def zeroOut (s : Surface) (loc : Nat × Nat) (th tw : Nat) : Surface :=
  { rows := s.rows
    cols := s.cols
    val := fun r c => if zeroSet s.rows s.cols loc th tw (r, c) then 0 else s.val r c }

/-- The `while max_precision > precision` loop of `get_all_on_screen`, with explicit
fuel.  Each iteration takes the best remaining peak; if it is strictly above the
threshold it zeroes the surrounding region of the correlation surface and records
the match.  `none` models the loop not reaching its exit within `fuel` iterations
(the Python loop is unbounded). -/
def getAllLoop (th tw : Nat) (precision : ℚ) (offX offY : Nat) :
    Nat → Surface → Option (List ImageSearchResult)
  | 0, _ => none
  | fuel + 1, s =>
    let m := minMaxLocMax s
    if precision < m.2 then
      match getAllLoop th tw precision offX offY fuel (zeroOut s m.1 th tw) with
      | none => none
      | some rest =>
        some ({ x := m.1.2 + offX, y := m.1.1 + offY, height := th, width := tw } :: rest)
    else some []

/-- `screen.get_all_on_screen`: multi-match probe with overlap suppression by zeroing
the correlation surface.  The initial `max_precision = 1` means the loop body only
ever runs when `precision < 1`. -/
def get_all_on_screen (env : Env) (fuel : Nat) (image : Frame) (path : String)
    (bounding_box : Option BoundingBox) (precision : ℚ) :
    Option (List ImageSearchResult) × List LogEvent :=
  match get_image_from_path env path with
  | (none, logs) => (some [], logs)
  | (some image_to_find, logs) =>
    let search_result := env.matchTemplate image image_to_find bounding_box
    if precision < 1 then
      (getAllLoop image_to_find.height image_to_find.width precision
        (bboxOffX bounding_box) (bboxOffY bounding_box) fuel search_result, logs)
    else (some [], logs)

/-- `loc` lies at least half a template size away from every border of the surface,
so the suppression window around it sits fully inside the correlation surface. -/
def interiorWindow (rows cols th tw : Nat) (p : Nat × Nat) : Prop :=
  th / 2 ≤ p.1 ∧ p.1 + th / 2 + 1 ≤ rows ∧ tw / 2 ≤ p.2 ∧ p.2 + tw / 2 + 1 ≤ cols

instance (rows cols th tw : Nat) (p : Nat × Nat) :
    Decidable (interiorWindow rows cols th tw p) := by
  unfold interiorWindow; infer_instance

/-- Recover the (row, column) correlation-surface position of a returned match from
its screen coordinates (the loop adds the crop offsets when building the result). -/
def matchPos (offX offY : Nat) (r : ImageSearchResult) : Nat × Nat :=
  (r.y - offY, r.x - offX)

/-- The `ImageSearchResult` appended by one iteration of the `get_all_on_screen`
loop for best position `m` (row, column): screen coordinates are the column/row
plus the crop offsets, and the shape is the template shape. -/
def loopResult (offX offY : Nat) (m : Nat × Nat) (th tw : Nat) : ImageSearchResult :=
  { x := m.2 + offX, y := m.1 + offY, height := th, width := tw }

/-- Two template-sized boxes placed at positions `p` and `q` (rows/columns of their
top-left corners) do not overlap at all. -/
def boxDisjoint (th tw : Nat) (p q : Nat × Nat) : Prop :=
  th ≤ Nat.dist p.1 q.1 ∨ tw ≤ Nat.dist p.2 q.2

instance (th tw : Nat) (p q : Nat × Nat) : Decidable (boxDisjoint th tw p q) := by
  unfold boxDisjoint; infer_instance

/-- No returned match lies in the region the probe actually zeroed around an earlier
returned match. -/
def suppressionSeparated (rows cols th tw offX offY : Nat)
    (l : List ImageSearchResult) : Prop :=
  List.Pairwise (fun a b =>
    ¬ zeroSet rows cols (matchPos offX offY a) th tw (matchPos offX offY b)) l

/-- Any two returned matches differ by more than half the template height in rows or
more than half the template width in columns. -/
def halfWindowSeparated (th tw offX offY : Nat) (l : List ImageSearchResult) : Prop :=
  List.Pairwise (fun a b =>
    th / 2 < Nat.dist (matchPos offX offY a).1 (matchPos offX offY b).1 ∨
    tw / 2 < Nat.dist (matchPos offX offY a).2 (matchPos offX offY b).2) l

/-- Correlation surface with a single above-threshold peak lying within half a
template height of the top border (row 0): with a 2×2 template, the zero-out step
computes `height_from = -1`, which numpy wraps to row 2, producing the empty row
slice `2:2` — the peak itself is never erased. -/
def borderPeakSurface : Surface :=
  { rows := 3, cols := 3, val := fun r c => if r = 0 ∧ c = 1 then mkRat 95 100 else 0 }

/-- Environment delivering `borderPeakSurface` for a 2×2 template. -/
def borderPeakEnv : Env :=
  { loadImage := fun p => some { id := p, height := 2, width := 2 }
    matchTemplate := fun _ _ _ => borderPeakSurface }

/-- Correlation surface of a frame containing exactly one occurrence of a 1×1
template, scoring exactly the precision threshold 9/10. -/
def thresholdEqSurface : Surface :=
  { rows := 1, cols := 1, val := fun _ _ => mkRat 9 10 }

/-- Environment delivering `thresholdEqSurface` for a 1×1 template. -/
def thresholdEqEnv : Env :=
  { loadImage := fun p => some { id := p, height := 1, width := 1 }
    matchTemplate := fun _ _ _ => thresholdEqSurface }

/-- Environment with a 1×1 template and a 1×1 correlation surface of score 1. -/
def unitPeakEnv : Env :=
  { loadImage := fun p => some { id := p, height := 1, width := 1 }
    matchTemplate := fun _ _ _ => { rows := 1, cols := 1, val := fun _ _ => 1 } }


/- Paths of the `Image` enum in `images.py` (`alune/images/<name>.png`). -/
namespace Image

/-- `Image.RITO_LOGO`. -/
def RITO_LOGO : String := "alune/images/rito_logo.png"

/-- `Image.CLOSE_LOBBY`. -/
def CLOSE_LOBBY : String := "alune/images/close_lobby.png"

/-- `Image.ACCEPTED`. -/
def ACCEPTED : String := "alune/images/accepted.png"

/-- `Image.COMPOSITION`. -/
def COMPOSITION : String := "alune/images/composition.png"

/-- `Image.ITEMS`. -/
def ITEMS : String := "alune/images/items.png"

/-- `Image.FIRST_PLACE`. -/
def FIRST_PLACE : String := "alune/images/first_place.png"

/-- `Image.BACK`. -/
def BACK : String := "alune/images/back.png"

/-- `Image.PICK_AUGMENT`. -/
def PICK_AUGMENT : String := "alune/images/pick_augment.png"

/-- `Image.CAROUSEL`. -/
def CAROUSEL : String := "alune/images/carousel.png"

/-- Modelled from the spec: the normal-game mode icon referenced by
`tft/game.py` (`Image.NORMAL_GAME`); its catalog entry is not in the available
`images.py`, which only defines the path-by-name convention. -/
def NORMAL_GAME : String := "alune/images/normal_game.png"

/-- Modelled from the spec: the alternate-mode icon `Image.DAWN_OF_HEROES`
referenced by `tft/game.py`; entry missing from the available `images.py`. -/
def DAWN_OF_HEROES : String := "alune/images/dawn_of_heroes.png"

/-- Modelled from the spec: `Image.COLLAPSE_TOP_BAR`, referenced by the surrender
check in `tft/game.py`; entry missing from the available `images.py`. -/
def COLLAPSE_TOP_BAR : String := "alune/images/collapse_top_bar.png"

/-- Modelled from the spec: `Image.PHASE_3_2_FULL`, the game-phase indicator of the
surrender checkpoint; entry missing from the available `images.py`. -/
def PHASE_3_2_FULL : String := "alune/images/phase_3_2_full.png"

end Image

/- The button catalog of `images.py` (class `Button`).  The image path of an
`ImageButton` is `alune/images/buttons/<variable name>.png`, assigned on module
load. -/
namespace Button

/-- `Button.play`. -/
def play : ImageButton :=
  { click_box := ⟨950, 600, 1200, 650⟩, capture_area := none
    image_path := "alune/images/buttons/play.png" }

/-- `Button.accept`. -/
def accept : ImageButton :=
  { click_box := ⟨525, 520, 755, 545⟩, capture_area := none
    image_path := "alune/images/buttons/accept.png" }

/-- `Button.exit_now`. -/
def exit_now : ImageButton :=
  { click_box := ⟨550, 425, 740, 440⟩, capture_area := some ⟨520, 400, 775, 425⟩
    image_path := "alune/images/buttons/exit_now.png" }

/-- `Button.check`. -/
def check : ImageButton :=
  { click_box := ⟨555, 425, 725, 470⟩, capture_area := none
    image_path := "alune/images/buttons/check.png" }

/-- `Button.normal_game`. -/
def normal_game : ImageButton :=
  { click_box := ⟨50, 250, 275, 580⟩, capture_area := none
    image_path := "alune/images/buttons/normal_game.png" }

/-- `Button.buy_xp`. -/
def buy_xp : ImageButton :=
  { click_box := ⟨35, 593, 124, 682⟩, capture_area := some ⟨9, 550, 170, 708⟩
    image_path := "alune/images/buttons/buy_xp.png" }

/-- `Button.return_to_board`. -/
def return_to_board : ImageButton :=
  { click_box := ⟨1155, 595, 1242, 682⟩, capture_area := some ⟨1128, 568, 1269, 709⟩
    image_path := "alune/images/buttons/return_to_board.png" }

/-- `Button.choose_one`. -/
def choose_one : ImageButton :=
  { click_box := ⟨636, 91, 693, 186⟩, capture_area := some ⟨1128, 568, 1269, 709⟩
    image_path := "alune/images/buttons/choose_one.png" }

/-- `Button.choose_one_hidden`. -/
def choose_one_hidden : ImageButton :=
  { click_box := ⟨1155, 595, 1242, 682⟩, capture_area := some ⟨1128, 568, 1269, 709⟩
    image_path := "alune/images/buttons/choose_one_hidden.png" }

/-- `Button.store_card_one` … `Button.store_card_five`. -/
def store_card_one : ClickButton := ⟨⟨180, 47, 363, 272⟩⟩

/-- Second store card. -/
def store_card_two : ClickButton := ⟨⟨402, 47, 585, 272⟩⟩

/-- Third store card. -/
def store_card_three : ClickButton := ⟨⟨624, 47, 807, 272⟩⟩

/-- Fourth store card. -/
def store_card_four : ClickButton := ⟨⟨845, 47, 1028, 272⟩⟩

/-- Fifth store card. -/
def store_card_five : ClickButton := ⟨⟨1067, 47, 1250, 272⟩⟩

/-- `Button.augment_one` … `Button.augment_three`. -/
def augment_one : ClickButton := ⟨⟨170, 120, 424, 520⟩⟩

/-- Second augment slot. -/
def augment_two : ClickButton := ⟨⟨516, 120, 770, 520⟩⟩

/-- Third augment slot. -/
def augment_three : ClickButton := ⟨⟨863, 120, 1117, 520⟩⟩

/-- `Button.augment_one_roll` … `Button.augment_three_roll`. -/
def augment_one_roll : ClickButton := ⟨⟨266, 602, 323, 659⟩⟩

/-- Second augment reroll control. -/
def augment_two_roll : ClickButton := ⟨⟨612, 602, 669, 659⟩⟩

/-- Third augment reroll control. -/
def augment_three_roll : ClickButton := ⟨⟨659, 602, 1016, 659⟩⟩

/-- `Button.get_store_cards`. -/
def get_store_cards : List ClickButton :=
  [store_card_one, store_card_two, store_card_three, store_card_four, store_card_five]

/-- `Button.get_augments`. -/
def get_augments : List ClickButton :=
  [augment_one, augment_two, augment_three]

/-- `Button.get_augment_rolls`. -/
def get_augment_rolls : List ClickButton :=
  [augment_one_roll, augment_two_roll, augment_three_roll]

/-- Modelled from the spec: `Button.check_choice` (the choice-confirmation control),
referenced by the classifier in `tft/game.py`; its catalog entry is not in the
available `images.py`, so the click box is a placeholder and only the identity and
path convention are meaningful. -/
def check_choice : ImageButton :=
  { click_box := ⟨0, 0, 0, 0⟩, capture_area := none
    image_path := "alune/images/buttons/check_choice.png" }

/-- Modelled from the spec: `Button.dawn_of_heroes_continue` (variant-specific
post-match continue control) referenced by `tft/game.py`; entry missing from the
available `images.py`. -/
def dawn_of_heroes_continue : ImageButton :=
  { click_box := ⟨0, 0, 0, 0⟩, capture_area := none
    image_path := "alune/images/buttons/dawn_of_heroes_continue.png" }

/-- Modelled from the spec: `Button.exit_lobby` clicked by the queue negotiator on
timeout (`tft/app.py`); entry missing from the available `images.py`. -/
def exit_lobby : ImageButton :=
  { click_box := ⟨0, 0, 0, 0⟩, capture_area := none
    image_path := "alune/images/buttons/exit_lobby.png" }

/-- Modelled from the spec: `Button.expand_top_bar` used by the surrender check;
entry missing from the available `images.py`. -/
def expand_top_bar : ImageButton :=
  { click_box := ⟨0, 0, 0, 0⟩, capture_area := none
    image_path := "alune/images/buttons/expand_top_bar.png" }

/-- Modelled from the spec: `Button.surrender` (confirm-surrender control) used by
the surrender sub-sequence; entry missing from the available `images.py`. -/
def surrender : ImageButton :=
  { click_box := ⟨0, 0, 0, 0⟩, capture_area := none
    image_path := "alune/images/buttons/surrender.png" }

/-- Modelled from the spec: `Button.check_surrender` (confirm-again control) used by
the surrender sub-sequence; entry missing from the available `images.py`. -/
def check_surrender : ImageButton :=
  { click_box := ⟨0, 0, 0, 0⟩, capture_area := none
    image_path := "alune/images/buttons/check_surrender.png" }

end Button

/-- The configuration capability (`config.py`, class `AluneConfig`), reduced to the
read-only accessors the core consumes.  `chance_to_buy_xp`, `queue_timeout` and
`use_screen_record` are modelled from the spec: their accessors are referenced by
`tft/game.py`, `tft/app.py` and `adb.py` but missing from the available
`config.py`. -/
structure AluneConfig where
  game_mode : String
  traits : List String
  surrender_early : Bool
  surrender_random_delay : Int
  chance_to_buy_xp : Int
  queue_timeout : Nat
  use_screen_record : Bool

/-- `AluneConfig.get_game_mode`. -/
def AluneConfig.get_game_mode (c : AluneConfig) : String := c.game_mode

/-- `AluneConfig.get_traits` (trait template paths). -/
def AluneConfig.get_traits (c : AluneConfig) : List String := c.traits

/-- `AluneConfig.should_surrender`. -/
def AluneConfig.should_surrender (c : AluneConfig) : Bool := c.surrender_early

/-- Modelled from the spec: `AluneConfig.get_chance_to_buy_xp` (XP-buy chance in
percent), read by `take_game_decision`; accessor missing from the available
`config.py`. -/
def AluneConfig.get_chance_to_buy_xp (c : AluneConfig) : Int := c.chance_to_buy_xp

/-- Modelled from the spec: `AluneConfig.get_queue_timeout` (queue accept timeout in
seconds), read by `TFTApp.queue`; accessor missing from the available `config.py`. -/
def AluneConfig.get_queue_timeout (c : AluneConfig) : Nat := c.queue_timeout

/-- Modelled from the spec: `AluneConfig.should_use_screen_record`, read by
`ADB.get_screen`; accessor missing from the available `config.py`. -/
def AluneConfig.should_use_screen_record (c : AluneConfig) : Bool := c.use_screen_record

/-- The game/app states (`tft/game.py`, enum `GameState`). -/
inductive GameState where
  | LOADING
  | MAIN_MENU
  | CHOOSE_MODE
  | LOBBY
  | QUEUE_MISSED
  | IN_GAME
  | POST_GAME_DAWN_OF_HEROES
  | POST_GAME
  | CHOICE_CONFIRM
deriving DecidableEq

/-- A game state with an optional image search result (`tft/game.py`,
dataclass `GameStateImageResult`). -/
structure GameStateImageResult where
  game_state : GameState
  image_result : Option ImageSearchResult
deriving DecidableEq

/-- A probe for a plain image at the classifier call sites
(`screen.get_on_screen(screenshot, path)`, full frame, default precision),
keeping only the returned value (logging is side-channel). -/
def probeImage (env : Env) (shot : Frame) (path : String) : Option ImageSearchResult :=
  (get_on_screen env shot path none defaultPrecision).1

/-- A probe for a button at the classifier call sites
(`screen.get_button_on_screen(screenshot, button)`, default precision). -/
def probeButton (env : Env) (shot : Frame) (b : ImageButton) : Option ImageSearchResult :=
  (get_button_on_screen env shot b defaultPrecision).1

/-- The game-mode icon chosen by the classifier: `Image.DAWN_OF_HEROES` when the
configured mode is "dawn of heroes", else `Image.NORMAL_GAME` (`tft/game.py`). -/
def game_mode_image (config : AluneConfig) : String :=
  if config.get_game_mode = "dawn of heroes" then Image.DAWN_OF_HEROES
  else Image.NORMAL_GAME

/-- `tft/game.py`, `get_game_state`: classify a screenshot by the fixed chain of
probes; `none` models the Python `None` (unknown state, no-op tick). -/
def get_game_state (env : Env) (screenshot : Frame) (config : AluneConfig) :
    Option GameStateImageResult :=
  if (probeButton env screenshot Button.check_choice).isSome then
    some { game_state := GameState.CHOICE_CONFIRM, image_result := none }
  else if (probeImage env screenshot Image.RITO_LOGO).isSome then
    some { game_state := GameState.LOADING, image_result := none }
  else if (probeImage env screenshot Button.play.image_path).isSome
      && !(probeImage env screenshot Image.BACK).isSome then
    some { game_state := GameState.MAIN_MENU, image_result := none }
  else match probeImage env screenshot (game_mode_image config) with
  | some image_result =>
    some { game_state := GameState.CHOOSE_MODE, image_result := some image_result }
  | none =>
    if (probeButton env screenshot Button.check).isSome then
      some { game_state := GameState.QUEUE_MISSED, image_result := none }
    else if (probeImage env screenshot Image.CLOSE_LOBBY).isSome
        && (probeButton env screenshot Button.play).isSome then
      some { game_state := GameState.LOBBY, image_result := none }
    else if (probeImage env screenshot Image.COMPOSITION).isSome
        || (probeImage env screenshot Image.ITEMS).isSome then
      some { game_state := GameState.IN_GAME, image_result := none }
    else if (probeImage env screenshot Image.BACK).isSome
        && (probeButton env screenshot Button.dawn_of_heroes_continue).isSome then
      some { game_state := GameState.POST_GAME_DAWN_OF_HEROES, image_result := none }
    else if (probeImage env screenshot Image.FIRST_PLACE).isSome
        && (probeImage env screenshot Image.BACK).isSome then
      some { game_state := GameState.POST_GAME, image_result := none }
    else none

/-- A classifier rule as the spec words it: a predicate over one frame, paired with
the state (and optional payload) it yields when satisfied. -/
def ClassifierRule : Type :=
  Env → Frame → AluneConfig → Option GameStateImageResult

/-- Spec-side, one rule per spec bullet, in the spec's order: the choice-confirmation
prompt rule. -/
def ruleChoiceConfirm : ClassifierRule := fun env shot _ =>
  if (probeButton env shot Button.check_choice).isSome then
    some { game_state := GameState.CHOICE_CONFIRM, image_result := none }
  else none

/-- Spec rule: loading splash. -/
def ruleLoading : ClassifierRule := fun env shot _ =>
  if (probeImage env shot Image.RITO_LOGO).isSome then
    some { game_state := GameState.LOADING, image_result := none }
  else none

/-- Spec rule: main menu — play icon present AND back icon absent. -/
def ruleMainMenu : ClassifierRule := fun env shot _ =>
  if (probeImage env shot Button.play.image_path).isSome
      && !(probeImage env shot Image.BACK).isSome then
    some { game_state := GameState.MAIN_MENU, image_result := none }
  else none

/-- Spec rule: mode select — mode icon visible, its location carried as payload. -/
def ruleChooseMode : ClassifierRule := fun env shot config =>
  (probeImage env shot (game_mode_image config)).map
    (fun image_result =>
      { game_state := GameState.CHOOSE_MODE, image_result := some image_result })

/-- Spec rule: queue-missed indicator. -/
def ruleQueueMissed : ClassifierRule := fun env shot _ =>
  if (probeButton env shot Button.check).isSome then
    some { game_state := GameState.QUEUE_MISSED, image_result := none }
  else none

/-- Spec rule: lobby — close-lobby icon AND play icon both present. -/
def ruleLobby : ClassifierRule := fun env shot _ =>
  if (probeImage env shot Image.CLOSE_LOBBY).isSome
      && (probeButton env shot Button.play).isSome then
    some { game_state := GameState.LOBBY, image_result := none }
  else none

/-- Spec rule: in match — composition icon OR items icon present. -/
def ruleInGame : ClassifierRule := fun env shot _ =>
  if (probeImage env shot Image.COMPOSITION).isSome
      || (probeImage env shot Image.ITEMS).isSome then
    some { game_state := GameState.IN_GAME, image_result := none }
  else none

/-- Spec rule: post-match variant A — back icon AND variant-specific continue. -/
def rulePostGameVariant : ClassifierRule := fun env shot _ =>
  if (probeImage env shot Image.BACK).isSome
      && (probeButton env shot Button.dawn_of_heroes_continue).isSome then
    some { game_state := GameState.POST_GAME_DAWN_OF_HEROES, image_result := none }
  else none

/-- Spec rule: post-match variant B — first-place icon AND back icon. -/
def rulePostGame : ClassifierRule := fun env shot _ =>
  if (probeImage env shot Image.FIRST_PLACE).isSome
      && (probeImage env shot Image.BACK).isSome then
    some { game_state := GameState.POST_GAME, image_result := none }
  else none

/-- The spec's fixed-priority ordered rule list (highest priority first). -/
def classifierRules : List ClassifierRule :=
  [ruleChoiceConfirm, ruleLoading, ruleMainMenu, ruleChooseMode, ruleQueueMissed,
   ruleLobby, ruleInGame, rulePostGameVariant, rulePostGame]

/-- First-satisfied-wins evaluation of an ordered rule list, as the spec words it:
the first rule returning a state wins; if none is satisfied the result is the
unknown (no-state) outcome. -/
def applyRules : List ClassifierRule → Env → Frame → AluneConfig →
    Option GameStateImageResult
  | [], _, _, _ => none
  | rule :: rest, env, shot, config =>
    match rule env shot config with
    | some result => some result
    | none => applyRules rest env shot config

/-- Spec-side classifier: evaluate the ordered rule list, first satisfied wins. -/
def classifySpec (env : Env) (shot : Frame) (config : AluneConfig) :
    Option GameStateImageResult :=
  applyRules classifierRules env shot config



/-- A device action issued by the decision engine, in program order.  `clickImage`
is `adb.click_button` on a recognizable button, `clickPlain` on a clickable-only
button, `clickBoundingBox` is `adb.click_bounding_box`, `goBack` is `adb.go_back`,
and `sleep` is `asyncio.sleep` with the given duration. -/
inductive Act where
  | clickImage (b : ImageButton)
  | clickPlain (b : ClickButton)
  | clickBoundingBox (bb : BoundingBox)
  | goBack
  | sleep (t : ℚ)
deriving DecidableEq

/-- Deterministic oracle for the module-level `random.Random()` of `tft/game.py`
and `config.py`, indexed by a draw counter: `bit k` models `getrandbits(1)`,
`intR k a b` models `randint(a, b)`, `ratR k a b` models `uniform(a, b)`, and
`shuffleCards k l` models `shuffle` of a list of clickable buttons. -/
structure Rng where
  bit : Nat → Bool
  intR : Nat → Int → Int → Int
  ratR : Nat → ℚ → ℚ → ℚ
  shuffleCards : Nat → List ClickButton → List ClickButton

/-- Well-formedness of the oracle: `shuffle` produces a permutation of its input
(what `random.shuffle` guarantees). -/
def Rng.Wf (rng : Rng) : Prop :=
  ∀ (k : Nat) (l : List ClickButton), List.Perm (rng.shuffleCards k l) l

/-- Mutable counters of one engine run: the rng draw counter and the index of the
next `get_screen` call. -/
structure EngineSt where
  rngCtr : Nat
  screenCtr : Nat
deriving DecidableEq

/-- Advance the rng draw counter by one. -/
def bumpRng (s : EngineSt) : EngineSt := { s with rngCtr := s.rngCtr + 1 }

/-- Advance the screenshot counter by one. -/
def bumpScreen (s : EngineSt) : EngineSt := { s with screenCtr := s.screenCtr + 1 }

/-- The reroll loop of `handle_augments`: for each reroll control of the shuffled
list, flip a coin (`getrandbits(1)`), click the control when it lands true, then
sleep 1 in every iteration. -/
def rollAugments (rng : Rng) : List ClickButton → EngineSt → List Act × EngineSt
  | [], s => ([], s)
  | b :: rest, s =>
    let coin := rng.bit s.rngCtr
    let s1 := bumpRng s
    let tail := rollAugments rng rest s1
    (((if coin then [Act.clickPlain b] else []) ++ [Act.sleep 1]) ++ tail.1, tail.2)

/-- `tft/game.py`, `handle_augments`: when the pick-augment indicator is visible,
shuffle the reroll controls, coin-flip each, sleep 2, then pick one augment slot by
`randint(0, 2)` and click it.  Out-of-range oracle indices fall back to the first
slot (the real `randint(0, 2)` is always in range). -/
def handle_augments (env : Env) (screenshot : Frame) (rng : Rng) (s : EngineSt) :
    List Act × EngineSt :=
  if ((get_on_screen env screenshot Image.PICK_AUGMENT none defaultPrecision).1).isSome then
    let rolls := rng.shuffleCards s.rngCtr Button.get_augment_rolls
    let s1 := bumpRng s
    let rolled := rollAugments rng rolls s1
    let idx := rng.intR rolled.2.rngCtr 0 ((Button.get_augments.length : Int) - 1)
    let s2 := bumpRng rolled.2
    (rolled.1 ++ [Act.sleep 2] ++
      [Act.clickPlain (Button.get_augments.getD idx.toNat Button.augment_one), Act.sleep 1],
     s2)
  else ([], s)

/-- The search-result loop of `buy_from_shop`: for each match, click the first
store card (in shuffled order) whose click box contains the match's middle, then
sleep a `uniform(0.25, 0.75)` delay. -/
def buyStoreCards (rng : Rng) (cards : List ClickButton) :
    List ImageSearchResult → EngineSt → List Act × EngineSt
  | [], s => ([], s)
  | r :: rest, s =>
    let clickActs :=
      match cards.find? (fun card => card.click_box.is_inside r.get_middle) with
      | some card => [Act.clickPlain card]
      | none => []
    let d := rng.ratR s.rngCtr (mkRat 25 100) (mkRat 75 100)
    let s1 := bumpRng s
    let tail := buyStoreCards rng cards rest s1
    (clickActs ++ [Act.sleep d] ++ tail.1, tail.2)

/-- The search region of the shop (`BoundingBox(170, 110, 1250, 230)`). -/
def shopRegion : BoundingBox := ⟨170, 110, 1250, 230⟩

/-- The per-trait loop of `buy_from_shop`: multi-match the trait template in the
shop region at precision 0.9; an empty result list continues with the next trait,
otherwise shuffle the store cards and buy each match.  `none` propagates a
divergence of the multi-match loop (see C10). -/
def shopTraits (env : Env) (rng : Rng) (fuel : Nat) (screenshot : Frame) :
    List String → EngineSt → Option (List Act × EngineSt)
  | [], s => some ([], s)
  | trait :: rest, s =>
    match (get_all_on_screen env fuel screenshot trait (some shopRegion) (mkRat 9 10)).1 with
    | none => none
    | some [] => shopTraits env rng fuel screenshot rest s
    | some (r :: rs) =>
      let cards := rng.shuffleCards s.rngCtr Button.get_store_cards
      let s1 := bumpRng s
      let bought := buyStoreCards rng cards (r :: rs) s1
      match shopTraits env rng fuel screenshot rest bought.2 with
      | none => none
      | some tail => some (bought.1 ++ tail.1, tail.2)

/-- `tft/game.py`, `buy_from_shop`: take one fresh screenshot, then run the trait
loop on it. -/
def buy_from_shop (env : Env) (dev : Nat → Frame) (cfg : AluneConfig) (rng : Rng)
    (fuel : Nat) (s : EngineSt) : Option (List Act × EngineSt) :=
  let screenshot := dev s.screenCtr
  let s0 := bumpScreen s
  shopTraits env rng fuel screenshot cfg.get_traits s0

/-- `config.py`, `AluneConfig.get_surrender_delay`: 0 when the configured upper
bound is non-positive, else `randint(1, bound)`. -/
def AluneConfig.get_surrender_delay (c : AluneConfig) (rng : Rng) (s : EngineSt) :
    ℚ × EngineSt :=
  if c.surrender_random_delay ≤ 0 then (0, s)
  else (((rng.intR s.rngCtr 1 c.surrender_random_delay : Int) : ℚ), bumpRng s)

/-- `tft/game.py`, `check_surrender_state`: nothing when surrender is disabled;
otherwise expand the top bar when collapsed (click, sleep 1, fresh screenshot),
then check the phase indicator; when it shows phase 3-2 sleep the configured
random delay and report that surrender should proceed. -/
def check_surrender_state (env : Env) (dev : Nat → Frame) (cfg : AluneConfig)
    (rng : Rng) (screenshot : Frame) (s : EngineSt) : Bool × List Act × EngineSt :=
  if cfg.should_surrender then
    let expanded :=
      if ((get_on_screen env screenshot Image.COLLAPSE_TOP_BAR none defaultPrecision).1).isSome
      then (screenshot, ([] : List Act), s)
      else (dev s.screenCtr, [Act.clickImage Button.expand_top_bar, Act.sleep 1],
        bumpScreen s)
    if ((get_on_screen env expanded.1 Image.PHASE_3_2_FULL none defaultPrecision).1).isSome
    then
      let delay := cfg.get_surrender_delay rng expanded.2.2
      (true, expanded.2.1 ++ [Act.sleep delay.1], delay.2)
    else (false, expanded.2.1, expanded.2.2)
  else (false, [], s)

/-- `tft/game.py`, `surrender_game`: back, sleep 2, confirm surrender, sleep 2,
confirm again, sleep 5. -/
def surrender_game_acts : List Act :=
  [Act.goBack, Act.sleep 2, Act.clickImage Button.surrender, Act.sleep 2,
   Act.clickImage Button.check_surrender, Act.sleep 5]

/-- The fixed carousel click region of the other-board branch
(`BoundingBox(420, 180, 825, 425)`). -/
def carouselRegion : BoundingBox := ⟨420, 180, 825, 425⟩

/-- The XP-purchase step of `take_game_decision`: when the buy-XP control is
visible, draw `randint(1, 100)` and click (then sleep 1) when the draw is at most
the configured chance; the draw is consumed only when the control is visible
(Python short-circuit `and`). -/
def xpStep (env : Env) (cfg : AluneConfig) (rng : Rng) (shot2 : Frame) (s2 : EngineSt) :
    List Act × EngineSt :=
  if ((get_button_on_screen env shot2 Button.buy_xp defaultPrecision).1).isSome then
    if rng.intR s2.rngCtr 1 100 ≤ cfg.get_chance_to_buy_xp then
      ([Act.clickImage Button.buy_xp, Act.sleep 1], bumpRng s2)
    else ([], bumpRng s2)
  else ([], s2)

/-- The hidden-choice step of `take_game_decision`: when the hidden-choice control
is visible, click it, sleep 2, and take a fresh screenshot; otherwise keep the
tick's screenshot. -/
def hiddenStep (env : Env) (dev : Nat → Frame) (screenshot : Frame) (s1 : EngineSt) :
    List Act × Frame × EngineSt :=
  if ((get_button_on_screen env screenshot Button.choose_one_hidden
      choicePromptPrecision).1).isSome then
    ([Act.clickImage Button.choose_one_hidden, Act.sleep 2], dev s1.screenCtr, bumpScreen s1)
  else ([], screenshot, s1)

/-- Steps 5–7 of a tick (XP purchase, shop purchase, surrender check), which run
whenever no earlier step short-circuited the tick: XP first, then the shop, then
the surrender check last; when the surrender check fires the surrender sub-sequence
is executed. -/
def lateSteps (env : Env) (dev : Nat → Frame) (cfg : AluneConfig) (rng : Rng)
    (fuel : Nat) (shot2 : Frame) (s2 : EngineSt) : Option (List Act × EngineSt) :=
  let xp := xpStep env cfg rng shot2 s2
  match buy_from_shop env dev cfg rng fuel xp.2 with
  | none => none
  | some shop =>
    let surr := check_surrender_state env dev cfg rng shot2 shop.2
    if surr.1 then
      some (xp.1 ++ shop.1 ++ surr.2.1 ++ surrender_game_acts, surr.2.2)
    else
      some (xp.1 ++ shop.1 ++ surr.2.1, surr.2.2)

/-- `tft/game.py`, `take_game_decision`: one tick of the in-match decision engine.
`fuel` bounds the inner multi-match loops of the shop step; `none` propagates their
divergence.  The emitted action sequence is exactly the source's program order:
other-board short-circuits; otherwise augments, then the hidden-choice click, then
either the active-choice click (short-circuit) or the late steps. -/
def take_game_decision (env : Env) (dev : Nat → Frame) (cfg : AluneConfig) (rng : Rng)
    (fuel : Nat) (s : EngineSt) : Option (List Act × EngineSt) :=
  let screenshot := dev s.screenCtr
  let s0 := bumpScreen s
  if ((get_button_on_screen env screenshot Button.return_to_board defaultPrecision).1).isSome
  then
    let shot1 := dev s0.screenCtr
    let s1 := bumpScreen s0
    if ((get_on_screen env shot1 Image.CAROUSEL none defaultPrecision).1).isSome then
      some ([Act.clickImage Button.return_to_board, Act.sleep 1,
        Act.clickImage Button.return_to_board, Act.sleep 2,
        Act.clickBoundingBox carouselRegion], s1)
    else
      some ([Act.clickImage Button.return_to_board, Act.sleep 1], s1)
  else
    let aug := handle_augments env screenshot rng s0
    let afterHidden := hiddenStep env dev screenshot aug.2
    if ((get_button_on_screen env afterHidden.2.1 Button.choose_one
        choicePromptPrecision).1).isSome then
      some (aug.1 ++ afterHidden.1 ++ [Act.clickImage Button.choose_one, Act.sleep 1],
        afterHidden.2.2)
    else
      match lateSteps env dev cfg rng fuel afterHidden.2.1 afterHidden.2.2 with
      | none => none
      | some late => some (aug.1 ++ afterHidden.1 ++ late.1, late.2)

/-- Iterate the decision engine for a number of ticks, collecting the actions. -/
def runTicks (env : Env) (dev : Nat → Frame) (cfg : AluneConfig) (rng : Rng)
    (fuel : Nat) : Nat → EngineSt → Option (List Act × EngineSt)
  | 0, s => some ([], s)
  | n + 1, s =>
    match take_game_decision env dev cfg rng fuel s with
    | none => none
    | some tick =>
      match runTicks env dev cfg rng fuel n tick.2 with
      | none => none
      | some tail => some (tick.1 ++ tail.1, tail.2)

/-- The classification step as the outer loop performs it: one fresh screenshot,
then `get_game_state`.  The rng oracle and its counter are part of the machine
state but `get_game_state` never consumes them — the explicit randomization points
all live in the decision functions. -/
def classify_in_loop (env : Env) (dev : Nat → Frame) (cfg : AluneConfig) (rng : Rng)
    (s : EngineSt) : Option GameStateImageResult × EngineSt :=
  (get_game_state env (dev s.screenCtr) cfg, bumpScreen s)

/-- Tick condition: the other-board probe fires on the tick's first screenshot. -/
def otherBoardFires (env : Env) (dev : Nat → Frame) (s : EngineSt) : Prop :=
  ((get_button_on_screen env (dev s.screenCtr) Button.return_to_board
    defaultPrecision).1).isSome = true

/-- Tick condition: the hidden-choice probe fires on the tick's first screenshot. -/
def hiddenChoiceFires (env : Env) (dev : Nat → Frame) (s : EngineSt) : Prop :=
  ((get_button_on_screen env (dev s.screenCtr) Button.choose_one_hidden
    choicePromptPrecision).1).isSome = true

/-- The screenshot the choice/XP probes see: refreshed when the hidden-choice step
clicked (the engine's second screenshot), else the tick's first screenshot. -/
def choiceShot (env : Env) (dev : Nat → Frame) (s : EngineSt) : Frame :=
  if ((get_button_on_screen env (dev s.screenCtr) Button.choose_one_hidden
      choicePromptPrecision).1).isSome
  then dev (s.screenCtr + 1) else dev s.screenCtr

/-- Tick condition: the active-choice probe fires on the screenshot it is given. -/
def choiceFires (env : Env) (dev : Nat → Frame) (s : EngineSt) : Prop :=
  ((get_button_on_screen env (choiceShot env dev s) Button.choose_one
    choicePromptPrecision).1).isSome = true

/-- The action is the XP-purchase click. -/
def isXpClick (a : Act) : Prop := a = Act.clickImage Button.buy_xp

instance (a : Act) : Decidable (isXpClick a) := by unfold isXpClick; infer_instance

/-- The action is a store-card click (one of the five catalog store cards). -/
def isStoreCardClick (a : Act) : Prop :=
  ∃ b, b ∈ Button.get_store_cards ∧ a = Act.clickPlain b

/-- The action belongs to the surrender branch: expand-top-bar click, back,
confirm-surrender click, or confirm-again click. -/
def isSurrenderAct (a : Act) : Prop :=
  a = Act.clickImage Button.expand_top_bar ∨ a = Act.goBack ∨
  a = Act.clickImage Button.surrender ∨ a = Act.clickImage Button.check_surrender

instance (a : Act) : Decidable (isSurrenderAct a) := by
  unfold isSurrenderAct; infer_instance

/-- The action shapes of the other-board/carousel branch. -/
def isOtherBoardAct (a : Act) : Prop :=
  a = Act.clickImage Button.return_to_board ∨ a = Act.clickBoundingBox carouselRegion ∨
  ∃ t, a = Act.sleep t



/-- A 1×1 correlation surface scoring 1 (template present). -/
def hiSurface : Surface := { rows := 1, cols := 1, val := fun _ _ => 1 }

/-- A 1×1 correlation surface scoring 0 (template absent). -/
def loSurface : Surface := { rows := 1, cols := 1, val := fun _ _ => 0 }

/-- Environment for a frame on which exactly the pick-augment indicator and the
buy-XP button are visible. -/
def augmentXpEnv : Env :=
  { loadImage := fun p => some { id := p, height := 1, width := 1 }
    matchTemplate := fun _ t _ =>
      if t.id = Image.PICK_AUGMENT ∨ t.id = Button.buy_xp.image_path then hiSurface
      else loSurface }

/-- A configuration with surrender disabled, no watched traits, and a 100% XP-buy
chance. -/
def plainCfg : AluneConfig :=
  { game_mode := "normal", traits := [], surrender_early := false
    surrender_random_delay := 0, chance_to_buy_xp := 100, queue_timeout := 120
    use_screen_record := false }

/-- A concrete oracle: coins land false, `randint` returns its lower bound,
`uniform` its lower bound, and `shuffle` leaves lists unchanged. -/
def idRng : Rng :=
  { bit := fun _ => false, intR := fun _ a _ => a, ratR := fun _ a _ => a
    shuffleCards := fun _ l => l }

/-- A device whose every captured frame is frame 0. -/
def constDev : Nat → Frame := fun _ => ⟨0⟩

/-- Either a plain-button click of a member of `l`, or a sleep. -/
def plainClickOfOrSleep (l : List ClickButton) (a : Act) : Prop :=
  (∃ b ∈ l, a = Act.clickPlain b) ∨ ∃ t, a = Act.sleep t

/-- A surrender-branch action or a sleep. -/
def surrOrSleep (a : Act) : Prop :=
  isSurrenderAct a ∨ ∃ t, a = Act.sleep t

/-- A 1×15 correlation surface for the shop region with a single full-score peak at
column 12: the resulting match middle (182, 110) lies inside the first store card's
click box. -/
def shopPeakSurface : Surface :=
  { rows := 1, cols := 15, val := fun r c => if r = 0 ∧ c = 12 then 1 else 0 }

/-- Environment for a frame on which exactly the buy-XP button and one shop card
with the watched trait are visible. -/
def xpShopEnv : Env :=
  { loadImage := fun p => some { id := p, height := 1, width := 1 }
    matchTemplate := fun _ t _ =>
      if t.id = Button.buy_xp.image_path then hiSurface
      else if t.id = "alune/images/traits/heavenly.png" then shopPeakSurface
      else loSurface }

/-- `plainCfg` with one watched trait. -/
def shopCfg : AluneConfig :=
  { plainCfg with traits := ["alune/images/traits/heavenly.png"] }

/-- Outcome of one `TFTApp.queue` negotiation: the accept-timeout was hit (caught
`asyncio.TimeoutError`), or the negotiation completed past the accept stage. -/
inductive QueueResult where
  | timedOut
  | joined
deriving DecidableEq

/-- The accept-control probe of the queue negotiator. -/
def accept_visible (env : Env) (shot : Frame) : Bool :=
  ((get_button_on_screen env shot Button.accept defaultPrecision).1).isSome

/-- The play-button probe used by the post-accept re-queue check. -/
def play_visible (env : Env) (shot : Frame) : Bool :=
  ((get_button_on_screen env shot Button.play defaultPrecision).1).isSome

/-- The accepted-overlay probe of the post-accept loop. -/
def accepted_visible (env : Env) (shot : Frame) : Bool :=
  ((get_on_screen env shot Image.ACCEPTED none defaultPrecision).1).isSome

/-- How many polls of `wait_for_accept_button` start before `asyncio.wait_for`
cancels it at the configured timeout: polls run at times 0, 2, 4, …, so those with
`2 * k < timeout` happen — `⌈timeout / 2⌉` of them. -/
def queuePollBudget (timeout : Nat) : Nat := (timeout + 1) / 2

/-- `TFTApp.wait_for_accept_button` under the `asyncio.wait_for` cancellation:
probe the accept control on a fresh screenshot, and while it is absent sleep 2 and
re-probe, for at most the given number of polls.  Returns whether the control was
found, the sleeps performed, and the final machine state. -/
def wait_for_accept_button (env : Env) (dev : Nat → Frame) :
    Nat → EngineSt → Bool × List Act × EngineSt
  | 0, s => (false, [], s)
  | n + 1, s =>
    if accept_visible env (dev s.screenCtr) then (true, [], bumpScreen s)
    else
      let r := wait_for_accept_button env dev n (bumpScreen s)
      (r.1, Act.sleep 2 :: r.2.1, r.2.2)

/-- The accepted-overlay loop of `TFTApp.queue`: take a screenshot and, while the
ACCEPTED overlay is visible, sleep 1 and re-screenshot.  `none` means the loop did
not exit within the fuel. -/
def acceptedOverlayLoop (env : Env) (dev : Nat → Frame) :
    Nat → EngineSt → Option (List Act × EngineSt)
  | 0, _ => none
  | n + 1, s =>
    if accepted_visible env (dev s.screenCtr) then
      match acceptedOverlayLoop env dev n (bumpScreen s) with
      | none => none
      | some r => some (Act.sleep 1 :: r.1, r.2)
    else some ([], bumpScreen s)

/-- `TFTApp.queue` (`tft/app.py`): wait for the accept control under the configured
timeout; on timeout click `Button.exit_lobby` and return (`asyncio.TimeoutError` is
caught — a recoverable outcome); otherwise click accept, sleep 2, wait out the
accepted overlay, sleep 3, and when the accept control or the play button is
visible again (queue declined by someone else) recurse.  `overlayFuel` bounds the
overlay loop, the outer fuel bounds the recursion; `none` means a loop or the
recursion did not finish within fuel. -/
def queue (env : Env) (dev : Nat → Frame) (cfg : AluneConfig) (overlayFuel : Nat) :
    Nat → EngineSt → Option (List Act × QueueResult × EngineSt)
  | 0, _ => none
  | fuel + 1, s =>
    let w := wait_for_accept_button env dev (queuePollBudget cfg.get_queue_timeout) s
    if w.1 = false then
      some (w.2.1 ++ [Act.clickImage Button.exit_lobby], QueueResult.timedOut, w.2.2)
    else
      match acceptedOverlayLoop env dev overlayFuel w.2.2 with
      | none => none
      | some ov =>
        let shot := dev ov.2.screenCtr
        let s3 := bumpScreen ov.2
        if accept_visible env shot || play_visible env shot then
          match queue env dev cfg overlayFuel fuel s3 with
          | none => none
          | some rec2 =>
            some ((Act.clickImage Button.accept :: Act.sleep 2 :: ov.1 ++ [Act.sleep 3])
              ++ rec2.1, rec2.2.1, rec2.2.2)
        else
          some (Act.clickImage Button.accept :: Act.sleep 2 :: ov.1 ++ [Act.sleep 3],
            QueueResult.joined, s3)

/-- Environment for a device on which no template ever matches. -/
def blankEnv : Env :=
  { loadImage := fun p => some { id := p, height := 1, width := 1 }
    matchTemplate := fun _ _ _ => loSurface }

/-- `plainCfg` with a 5-time-unit queue timeout. -/
def timeoutCfg : AluneConfig := { plainCfg with queue_timeout := 5 }

/-- Mutable screen-record state of the `ADB` instance (`adb.py`): the latest
buffered frame and its capture timestamp, the stop flag of the background
recorder, and whether a recorder task exists that has not finished. -/
structure AdbSt where
  latest_frame : Option Frame
  latest_frame_ts : ℚ
  should_stop_screen_recording : Bool
  record_task_live : Bool
deriving DecidableEq

/-- `ADB.mark_screen_record_for_close`: raise the recorder's stop flag. -/
def mark_screen_record_for_close (st : AdbSt) : AdbSt :=
  { st with should_stop_screen_recording := true }

/-- `ADB.create_screen_record_task`: early-return while a previous task is still
running; otherwise clear the stop flag and start a new recorder task. -/
def create_screen_record_task (st : AdbSt) : AdbSt :=
  if st.record_task_live then st
  else { st with should_stop_screen_recording := false, record_task_live := true }

/-- `ADB.get_screen` (`adb.py`): with screen recording in use and a buffered frame
present, check the frame's age against the 15-time-unit freshness window; when it
is stale, warn, mark the recorder for close, sleep 0.2 (during which the old
recorder task may observe the flag and finish — `oldTaskExits`), recreate the
recorder task, and return the buffered frame; without screen recording, fall back
to a fresh `screencap` capture. -/
def ADB.get_screen (cfg : AluneConfig) (st : AdbSt) (now : ℚ) (oldTaskExits : Bool)
    (capture : Frame) : Option Frame × AdbSt × List LogEvent :=
  if cfg.should_use_screen_record then
    match st.latest_frame with
    | some f =>
      if now - st.latest_frame_ts > 15 then
        let st1 := mark_screen_record_for_close st
        let st2 := { st1 with record_task_live := st1.record_task_live && !oldTaskExits }
        (some f, create_screen_record_task st2, [LogEvent.warnStaleFrames])
      else (some f, st, [])
    | none => (none, st, [])
  else (some capture, st, [])

/-- An ADB state whose buffered frame (frame 7) was captured at time 0. -/
def staleSt : AdbSt :=
  { latest_frame := some ⟨7⟩, latest_frame_ts := 0
    should_stop_screen_recording := false, record_task_live := true }

/-- `plainCfg` with the background screen-record capture enabled. -/
def recordCfg : AluneConfig := { plainCfg with use_screen_record := true }


end Alune

namespace Alune

/-- C5: for every frame, template, optional region and threshold, the single-match
probe returns the best-scoring correlation peak (offset by the crop origin, carrying
the template shape) iff that best score is at least the threshold, and `none`
otherwise; moreover the default threshold is 0.8 and the choice prompts are probed
at 0.9. -/
theorem C5_single_match_iff (env : Env) (image : Frame) (path : String)
    (bounding_box : Option BoundingBox) (precision : ℚ) (t : Template)
    (h : env.loadImage path = some t) :
    (get_on_screen env image path bounding_box precision).1 =
      (if precision ≤ (minMaxLocMax (env.matchTemplate image t bounding_box)).2
       then some { x := (minMaxLocMax (env.matchTemplate image t bounding_box)).1.2 +
                     bboxOffX bounding_box
                   y := (minMaxLocMax (env.matchTemplate image t bounding_box)).1.1 +
                     bboxOffY bounding_box
                   height := t.height
                   width := t.width }
       else none)
    ∧ defaultPrecision = 8/10 ∧ choicePromptPrecision = 9/10 := by
  refine ⟨?_, by rw [defaultPrecision, Rat.mkRat_eq_div]; norm_num,
    by rw [choicePromptPrecision, Rat.mkRat_eq_div]; norm_num⟩
  unfold get_on_screen get_image_from_path
  rw [h]
  simp only []
  by_cases hc : (minMaxLocMax (env.matchTemplate image t bounding_box)).2 < precision
  · rw [if_pos hc, if_neg (by exact not_le.mpr hc)]
  · rw [if_neg hc, if_pos (le_of_not_lt hc)]

/-- Witness for C5 at a concrete environment: a 1×1 template over a 1×1 surface of
score 1 is found at threshold 9/10. -/
theorem C5_single_match_iff_witness :
    (get_on_screen
        { loadImage := fun p => some { id := p, height := 1, width := 1 }
          matchTemplate := fun _ _ _ => { rows := 1, cols := 1, val := fun _ _ => 1 } }
        ⟨0⟩ "alune/images/items.png" none (mkRat 9 10)).1 =
      some { x := 0, y := 0, height := 1, width := 1 } := by
  have h := C5_single_match_iff
    { loadImage := fun p => some { id := p, height := 1, width := 1 }
      matchTemplate := fun _ _ _ => { rows := 1, cols := 1, val := fun _ _ => 1 } }
    ⟨0⟩ "alune/images/items.png" none (mkRat 9 10)
    { id := "alune/images/items.png", height := 1, width := 1 } rfl
  rw [h.1]
  decide

/-- C6: when the template image file is missing or unreadable, both probes log a
warning and return the normal no-match result (`none` for the single-match probe,
the empty list for the multi-match probe); no exception reaches the caller (the
embedded functions are total and take the guarded early-return path). -/
theorem C6_missing_template_no_match (env : Env) (fuel : Nat) (image : Frame)
    (path : String) (bounding_box : Option BoundingBox) (precision : ℚ)
    (h : env.loadImage path = none) :
    get_on_screen env image path bounding_box precision =
      (none, [LogEvent.warnMissingImage path])
    ∧ get_all_on_screen env fuel image path bounding_box precision =
      (some [], [LogEvent.warnMissingImage path]) := by
  constructor
  · unfold get_on_screen get_image_from_path
    rw [h]
  · unfold get_all_on_screen get_image_from_path
    rw [h]

/-- Witness for C6: a store with no images makes both probes return no-match plus
the warning. -/
theorem C6_missing_template_no_match_witness :
    get_on_screen
      { loadImage := fun _ => none
        matchTemplate := fun _ _ _ => { rows := 0, cols := 0, val := fun _ _ => 0 } }
      ⟨0⟩ "alune/images/back.png" none (mkRat 8 10) =
      (none, [LogEvent.warnMissingImage "alune/images/back.png"]) :=
  (C6_missing_template_no_match
    { loadImage := fun _ => none
      matchTemplate := fun _ _ _ => { rows := 0, cols := 0, val := fun _ _ => 0 } }
    3 ⟨0⟩ "alune/images/back.png" none (mkRat 8 10) rfl).1

lemma scanPositions_mem {rows cols : Nat} {p : Nat × Nat} :
    p ∈ scanPositions rows cols ↔ p.1 < rows ∧ p.2 < cols := by
  constructor
  · intro h
    rcases List.mem_flatMap.mp h with ⟨a, ha, hmem⟩
    rcases List.mem_map.mp hmem with ⟨b, hb, he⟩
    subst he
    exact ⟨List.mem_range.mp ha, List.mem_range.mp hb⟩
  · rintro ⟨h1, h2⟩
    exact List.mem_flatMap.mpr ⟨p.1, List.mem_range.mpr h1,
      List.mem_map.mpr ⟨p.2, List.mem_range.mpr h2, rfl⟩⟩

lemma foldl_mmStep_init_le (s : Surface) (l : List (Nat × Nat)) (init : (Nat × Nat) × ℚ) :
    init.2 ≤ (l.foldl (mmStep s) init).2 := by
  induction l generalizing init with
  | nil => exact le_refl _
  | cons a t ih =>
    simp only [List.foldl_cons]
    refine le_trans ?_ (ih (mmStep s init a))
    unfold mmStep
    by_cases h : init.2 < s.val a.1 a.2
    · rw [if_pos h]; exact le_of_lt h
    · rw [if_neg h]

lemma foldl_mmStep_mem_le (s : Surface) (l : List (Nat × Nat)) :
    ∀ (init : (Nat × Nat) × ℚ) (p : Nat × Nat), p ∈ l →
      s.val p.1 p.2 ≤ (l.foldl (mmStep s) init).2 := by
  induction l with
  | nil => intro init p hp; cases hp
  | cons a t ih =>
    intro init p hp
    simp only [List.foldl_cons]
    rcases List.mem_cons.mp hp with h | h
    · subst h
      refine le_trans ?_ (foldl_mmStep_init_le s t (mmStep s init p))
      unfold mmStep
      by_cases hlt : init.2 < s.val p.1 p.2
      · rw [if_pos hlt]
      · rw [if_neg hlt]; exact le_of_not_lt hlt
    · exact ih (mmStep s init a) p h

lemma foldl_mmStep_result (s : Surface) (l : List (Nat × Nat)) (init : (Nat × Nat) × ℚ) :
    l.foldl (mmStep s) init = init ∨
      ∃ p ∈ l, l.foldl (mmStep s) init = (p, s.val p.1 p.2) := by
  induction l generalizing init with
  | nil => exact Or.inl rfl
  | cons a t ih =>
    simp only [List.foldl_cons]
    rcases ih (mmStep s init a) with h | ⟨p, hp, he⟩
    · rw [h]
      unfold mmStep
      by_cases hlt : init.2 < s.val a.1 a.2
      · exact Or.inr ⟨a, List.mem_cons_self a t, by rw [if_pos hlt]⟩
      · exact Or.inl (by rw [if_neg hlt])
    · exact Or.inr ⟨p, List.mem_cons_of_mem a hp, he⟩

lemma minMaxLocMax_ge (s : Surface) {r c : Nat} (hr : r < s.rows) (hc : c < s.cols) :
    s.val r c ≤ (minMaxLocMax s).2 :=
  foldl_mmStep_mem_le s _ _ (r, c) (scanPositions_mem.mpr ⟨hr, hc⟩)

lemma minMaxLocMax_result (s : Surface) (h0r : 0 < s.rows) (h0c : 0 < s.cols) :
    (minMaxLocMax s).1.1 < s.rows ∧ (minMaxLocMax s).1.2 < s.cols ∧
      (minMaxLocMax s).2 = s.val (minMaxLocMax s).1.1 (minMaxLocMax s).1.2 := by
  unfold minMaxLocMax
  rcases foldl_mmStep_result s (scanPositions s.rows s.cols) ((0, 0), s.val 0 0) with h | hex
  · rw [h]; exact ⟨h0r, h0c, rfl⟩
  · obtain ⟨p, hp, he⟩ := hex
    rw [he]
    have hb := scanPositions_mem.mp hp
    exact ⟨hb.1, hb.2, rfl⟩

lemma pySliceBound_of_natCast (len a : Nat) : pySliceBound len (a : Int) = min a len := by
  unfold pySliceBound
  rw [if_neg (not_lt.mpr (Int.natCast_nonneg a))]
  simp

lemma inPySlice_interior {len c half : Nat} (hlow : half ≤ c) (hhigh : c + half + 1 ≤ len)
    (i : Nat) :
    inPySlice len ((c : Int) - half) ((c : Int) + half + 1) i ↔
      (c - half ≤ i ∧ i ≤ c + half) := by
  unfold inPySlice
  have hcast1 : ((c : Int) - half) = ((c - half : Nat) : Int) := by
    push_cast [hlow]; ring
  have hcast2 : ((c : Int) + half + 1) = ((c + half + 1 : Nat) : Int) := by
    push_cast; ring
  rw [hcast1, hcast2, pySliceBound_of_natCast, pySliceBound_of_natCast,
    Nat.min_eq_left (by omega), Nat.min_eq_left hhigh]
  omega

lemma zeroSet_iff_of_interior {rows cols th tw : Nat} {loc : Nat × Nat}
    (h : interiorWindow rows cols th tw loc) (p : Nat × Nat) :
    zeroSet rows cols loc th tw p ↔
      (loc.1 - th / 2 ≤ p.1 ∧ p.1 ≤ loc.1 + th / 2 ∧
       loc.2 - tw / 2 ≤ p.2 ∧ p.2 ≤ loc.2 + tw / 2) := by
  obtain ⟨h1, h2, h3, h4⟩ := h
  unfold zeroSet
  rw [inPySlice_interior h1 h2, inPySlice_interior h3 h4]
  tauto

lemma zeroSet_self_of_interior {rows cols th tw : Nat} {loc : Nat × Nat}
    (h : interiorWindow rows cols th tw loc) : zeroSet rows cols loc th tw loc := by
  rw [zeroSet_iff_of_interior h]
  omega

lemma not_zeroSet_of_boxDisjoint {rows cols th tw : Nat} {loc p : Nat × Nat}
    (hth : 0 < th) (htw : 0 < tw) (hint : interiorWindow rows cols th tw loc)
    (hd : boxDisjoint th tw loc p) : ¬ zeroSet rows cols loc th tw p := by
  rw [zeroSet_iff_of_interior hint]
  have hh : th / 2 < th := Nat.div_lt_self hth (by norm_num)
  have hw : tw / 2 < tw := Nat.div_lt_self htw (by norm_num)
  rcases hd with h | h
  · simp only [Nat.dist] at h
    omega
  · simp only [Nat.dist] at h
    omega

lemma pairwise_forall_of_symm {α : Type} {R : α → α → Prop}
    (hR : ∀ a b, R a b → R b a) :
    ∀ {l : List α}, l.Pairwise R → ∀ a ∈ l, ∀ b ∈ l, a ≠ b → R a b := by
  intro l
  induction l with
  | nil => intro _ a ha; cases ha
  | cons x t ih =>
    intro hp a ha b hb hne
    rcases List.pairwise_cons.mp hp with ⟨hx, ht⟩
    rcases List.mem_cons.mp ha with ha1 | ha2
    · rcases List.mem_cons.mp hb with hb1 | hb2
      · exact absurd (ha1.trans hb1.symm) hne
      · exact ha1 ▸ hx b hb2
    · rcases List.mem_cons.mp hb with hb1 | hb2
      · exact hb1 ▸ hR _ _ (hx a ha2)
      · exact ih ht a ha2 b hb2 hne

lemma getAllLoop_succ (th tw : Nat) (precision : ℚ) (offX offY fuel : Nat) (s : Surface) :
    getAllLoop th tw precision offX offY (fuel + 1) s =
      (if precision < (minMaxLocMax s).2 then
        match getAllLoop th tw precision offX offY fuel
            (zeroOut s (minMaxLocMax s).1 th tw) with
        | none => none
        | some rest => some (loopResult offX offY (minMaxLocMax s).1 th tw :: rest)
      else some []) := rfl

lemma matchPos_loopResult (offX offY : Nat) (m : Nat × Nat) (th tw : Nat) :
    matchPos offX offY (loopResult offX offY m th tw) = m := by
  unfold matchPos loopResult
  simp

lemma getAllLoop_sound (th tw : Nat) (prec : ℚ) (offX offY : Nat) (hprec : 0 ≤ prec) :
    ∀ (fuel : Nat) (s : Surface) (l : List ImageSearchResult),
      0 < s.rows → 0 < s.cols →
      getAllLoop th tw prec offX offY fuel s = some l →
      (∀ r ∈ l, prec < s.val (matchPos offX offY r).1 (matchPos offX offY r).2 ∧
        (matchPos offX offY r).1 < s.rows ∧ (matchPos offX offY r).2 < s.cols) ∧
      suppressionSeparated s.rows s.cols th tw offX offY l := by
  intro fuel
  induction fuel with
  | zero => intro s l _ _ h; cases h
  | succ n ih =>
    intro s l h0r h0c h
    rw [getAllLoop_succ] at h
    by_cases hm : prec < (minMaxLocMax s).2
    · rw [if_pos hm] at h
      cases hrec : getAllLoop th tw prec offX offY n (zeroOut s (minMaxLocMax s).1 th tw) with
      | none => rw [hrec] at h; cases h
      | some rest =>
        rw [hrec] at h
        have hl : l = loopResult offX offY (minMaxLocMax s).1 th tw :: rest := by
          cases h; rfl
        subst hl
        have hres := minMaxLocMax_result s h0r h0c
        have ihres := ih (zeroOut s (minMaxLocMax s).1 th tw) rest h0r h0c hrec
        have hmp := matchPos_loopResult offX offY (minMaxLocMax s).1 th tw
        have hrest : ∀ r ∈ rest,
            ¬ zeroSet s.rows s.cols (minMaxLocMax s).1 th tw (matchPos offX offY r) ∧
            prec < s.val (matchPos offX offY r).1 (matchPos offX offY r).2 ∧
            (matchPos offX offY r).1 < s.rows ∧ (matchPos offX offY r).2 < s.cols := by
          intro r hr
          obtain ⟨hv, hb1, hb2⟩ := ihres.1 r hr
          by_cases hz : zeroSet s.rows s.cols (minMaxLocMax s).1 th tw (matchPos offX offY r)
          · exfalso
            have hzero : (zeroOut s (minMaxLocMax s).1 th tw).val
                (matchPos offX offY r).1 (matchPos offX offY r).2 = 0 := by
              show (if zeroSet s.rows s.cols (minMaxLocMax s).1 th tw
                  ((matchPos offX offY r).1, (matchPos offX offY r).2) then 0
                else s.val (matchPos offX offY r).1 (matchPos offX offY r).2) = 0
              rw [if_pos hz]
            rw [hzero] at hv
            exact absurd (lt_of_le_of_lt hprec hv) (lt_irrefl 0)
          · have hsame : (zeroOut s (minMaxLocMax s).1 th tw).val
                (matchPos offX offY r).1 (matchPos offX offY r).2 =
                s.val (matchPos offX offY r).1 (matchPos offX offY r).2 := by
              show (if zeroSet s.rows s.cols (minMaxLocMax s).1 th tw
                  ((matchPos offX offY r).1, (matchPos offX offY r).2) then 0
                else s.val (matchPos offX offY r).1 (matchPos offX offY r).2) = _
              rw [if_neg hz]
            rw [hsame] at hv
            exact ⟨hz, hv, hb1, hb2⟩
        constructor
        · intro r hr
          rcases List.mem_cons.mp hr with hmem | hr
          · subst hmem
            rw [hmp]
            exact ⟨by rw [← hres.2.2]; exact hm, hres.1, hres.2.1⟩
          · exact (hrest r hr).2
        · unfold suppressionSeparated
          refine List.pairwise_cons.mpr ⟨?_, ihres.2⟩
          intro b hb
          rw [hmp]
          exact (hrest b hb).1
    · rw [if_neg hm] at h
      have hl : l = [] := by cases h; rfl
      subst hl
      exact ⟨fun r hr => absurd hr (List.not_mem_nil r), List.Pairwise.nil⟩

lemma getAllLoop_exact (th tw : Nat) (prec : ℚ) (offX offY : Nat)
    (hth : 0 < th) (htw : 0 < tw) (hprec : 0 ≤ prec) :
    ∀ (n : Nat) (Q : List (Nat × Nat)) (s : Surface),
      Q.length = n → Q.Nodup → 0 < s.rows → 0 < s.cols →
      (∀ p ∈ Q, interiorWindow s.rows s.cols th tw p) →
      (∀ p ∈ Q, prec < s.val p.1 p.2) →
      (∀ r c, r < s.rows → c < s.cols → (r, c) ∉ Q → s.val r c ≤ prec) →
      List.Pairwise (boxDisjoint th tw) Q →
      ∃ l, getAllLoop th tw prec offX offY (n + 1) s = some l ∧ l.length = n := by
  intro n
  induction n with
  | zero =>
    intro Q s hlen _ h0r h0c _ _ hother _
    have hQ : Q = [] := List.length_eq_zero.mp hlen
    subst hQ
    have hmax : ¬ prec < (minMaxLocMax s).2 := by
      obtain ⟨hb1, hb2, he⟩ := minMaxLocMax_result s h0r h0c
      rw [he]
      exact not_lt.mpr (hother _ _ hb1 hb2 (List.not_mem_nil _))
    refine ⟨[], ?_, rfl⟩
    rw [getAllLoop_succ, if_neg hmax]
  | succ n ih =>
    intro Q s hlen hnodup h0r h0c hint hval hother hpair
    obtain ⟨hb1, hb2, he⟩ := minMaxLocMax_result s h0r h0c
    obtain ⟨q, hq⟩ := List.exists_mem_of_ne_nil Q (by intro hQ; rw [hQ] at hlen; cases hlen)
    have hq_bounds : q.1 < s.rows ∧ q.2 < s.cols := by
      obtain ⟨ha1, ha2, ha3, ha4⟩ := hint q hq
      exact ⟨by omega, by omega⟩
    have hmax : prec < (minMaxLocMax s).2 :=
      lt_of_lt_of_le (hval q hq) (minMaxLocMax_ge s hq_bounds.1 hq_bounds.2)
    have hmem : (minMaxLocMax s).1 ∈ Q := by
      by_contra hc
      have hle : s.val (minMaxLocMax s).1.1 (minMaxLocMax s).1.2 ≤ prec :=
        hother _ _ hb1 hb2 hc
      rw [← he] at hle
      exact absurd hmax (not_lt.mpr hle)
    have hint_m := hint _ hmem
    have hsym : ∀ a b : Nat × Nat, boxDisjoint th tw a b → boxDisjoint th tw b a := by
      intro a b hab
      rcases hab with h | h
      · exact Or.inl (by rwa [Nat.dist_comm])
      · exact Or.inr (by rwa [Nat.dist_comm])
    obtain ⟨l, hl, hllen⟩ := ih (Q.erase (minMaxLocMax s).1) (zeroOut s (minMaxLocMax s).1 th tw)
      (by rw [List.length_erase_of_mem hmem, hlen]; rfl)
      (hnodup.erase _) h0r h0c
      (fun p hp => hint p (List.mem_of_mem_erase hp))
      (fun p hp => by
        obtain ⟨hne, hpQ⟩ := (hnodup.mem_erase_iff).mp hp
        have hnz : ¬ zeroSet s.rows s.cols (minMaxLocMax s).1 th tw p :=
          not_zeroSet_of_boxDisjoint hth htw hint_m
            (pairwise_forall_of_symm hsym hpair _ hmem _ hpQ (Ne.symm hne))
        show prec < (if zeroSet s.rows s.cols (minMaxLocMax s).1 th tw (p.1, p.2) then 0
          else s.val p.1 p.2)
        rw [if_neg (by rwa [show ((p.1 : Nat), (p.2 : Nat)) = p from rfl])]
        exact hval p hpQ)
      (fun r c hr hc hnotin => by
        show (if zeroSet s.rows s.cols (minMaxLocMax s).1 th tw (r, c) then 0
          else s.val r c) ≤ prec
        by_cases hz : zeroSet s.rows s.cols (minMaxLocMax s).1 th tw (r, c)
        · rw [if_pos hz]; exact hprec
        · rw [if_neg hz]
          by_cases hin : (r, c) ∈ Q
          · have heq : (r, c) = (minMaxLocMax s).1 := by
              by_contra hcc
              exact hnotin ((hnodup.mem_erase_iff).mpr ⟨hcc, hin⟩)
            exact absurd (by rw [heq]; exact zeroSet_self_of_interior hint_m) hz
          · exact hother r c hr hc hin)
      (hpair.sublist (List.erase_sublist _ _))
    refine ⟨loopResult offX offY (minMaxLocMax s).1 th tw :: l, ?_, by simp [hllen]⟩
    rw [getAllLoop_succ, if_pos hmax, hl]

lemma not_zeroSet_borderPeak (p : Nat × Nat) :
    ¬ zeroSet borderPeakSurface.rows borderPeakSurface.cols (0, 1) 2 2 p := by
  rintro ⟨⟨h1, h2⟩, -⟩
  have hb1 : pySliceBound borderPeakSurface.rows
      (((0, 1) : Nat × Nat).1 - ((2 / 2 : Nat) : Int)) = 2 := by decide
  have hb2 : pySliceBound borderPeakSurface.rows
      (((0, 1) : Nat × Nat).1 + ((2 / 2 : Nat) : Int) + 1) = 2 := by decide
  rw [hb1] at h1
  rw [hb2] at h2
  omega

lemma zeroOut_borderPeak : zeroOut borderPeakSurface (0, 1) 2 2 = borderPeakSurface := by
  unfold zeroOut
  congr 1
  funext r c
  rw [if_neg (not_zeroSet_borderPeak (r, c))]
  rfl

lemma getAllLoop_borderPeak_none :
    ∀ fuel, getAllLoop 2 2 (mkRat 9 10) 0 0 fuel borderPeakSurface = none := by
  intro fuel
  induction fuel with
  | zero => rfl
  | succ n ih =>
    rw [getAllLoop_succ]
    have hm : minMaxLocMax borderPeakSurface = ((0, 1), mkRat 95 100) := by decide
    rw [if_pos (by rw [hm]; decide)]
    have hz : zeroOut borderPeakSurface (minMaxLocMax borderPeakSurface).1 2 2 =
        borderPeakSurface := by
      rw [hm]
      exact zeroOut_borderPeak
    rw [hz, ih]

lemma get_all_on_screen_eq_loop (env : Env) (fuel : Nat) (image : Frame) (path : String)
    (bb : Option BoundingBox) (prec : ℚ) (t : Template)
    (hload : env.loadImage path = some t) (hlt : prec < 1) :
    (get_all_on_screen env fuel image path bb prec).1 =
      getAllLoop t.height t.width prec (bboxOffX bb) (bboxOffY bb) fuel
        (env.matchTemplate image t bb) := by
  unfold get_all_on_screen get_image_from_path
  simp only [hload]
  rw [if_pos hlt]

lemma get_all_on_screen_eq_empty (env : Env) (fuel : Nat) (image : Frame) (path : String)
    (bb : Option BoundingBox) (prec : ℚ) (t : Template)
    (hload : env.loadImage path = some t) (hge : ¬ prec < 1) :
    (get_all_on_screen env fuel image path bb prec).1 = some [] := by
  unfold get_all_on_screen get_image_from_path
  simp only [hload]
  rw [if_neg hge]

/-- C10: the claim states that for every frame, readable template and threshold
strictly below 1, the multi-match loop terminates — including when the best match
lies within half a template height or width of the search-region border.  The code
contradicts its own comment ("Override the best result with empty pixels. Not doing
this would result in the same location being matched multiple times"): with the
2×2 template and a 0.95-scoring peak at (row 0, column 1) of a 3×3 correlation
surface, `height_from = -1` wraps to row 2, making the slice `2:2` empty; the peak
is never overridden and the loop re-finds it forever.  Formally: for every
iteration budget the loop has not reached its exit condition. -/
theorem C10_multi_match_nontermination :
    (mkRat 9 10 : ℚ) < 1 ∧
    borderPeakSurface.val 0 1 = mkRat 95 100 ∧
    zeroOut borderPeakSurface (0, 1) 2 2 = borderPeakSurface ∧
    (∀ fuel, (get_all_on_screen borderPeakEnv fuel ⟨0⟩
      "alune/images/traits/heavenly.png" none (mkRat 9 10)).1 = none) := by
  refine ⟨by decide, by decide, zeroOut_borderPeak, ?_⟩
  intro fuel
  rw [get_all_on_screen_eq_loop borderPeakEnv fuel ⟨0⟩ _ none (mkRat 9 10)
    { id := "alune/images/traits/heavenly.png", height := 2, width := 2 } rfl (by decide)]
  exact getAllLoop_borderPeak_none fuel

/-- C3 counterexample: a frame whose correlation surface is 1×1 with the single
position scoring exactly the 0.9 precision threshold contains exactly one
occurrence scoring at-or-above the threshold, yet the multi-match probe returns the
empty list (the loop uses a strict comparison), not exactly one match. -/
theorem C3_counterexample_threshold_equality :
    thresholdEqSurface.rows = 1 ∧ thresholdEqSurface.cols = 1 ∧
    mkRat 9 10 ≤ thresholdEqSurface.val 0 0 ∧
    (get_all_on_screen thresholdEqEnv 1 ⟨0⟩
      "alune/images/traits/heavenly.png" none (mkRat 9 10)).1 = some [] := by
  refine ⟨rfl, rfl, by decide, ?_⟩
  rw [get_all_on_screen_eq_loop thresholdEqEnv 1 ⟨0⟩ _ none (mkRat 9 10)
    { id := "alune/images/traits/heavenly.png", height := 1, width := 1 } rfl (by decide)]
  rw [getAllLoop_succ, if_neg (by decide)]

/-- C3 (amended): whenever the multi-match probe returns, (i) no returned match lies
in the region the loop actually zeroed around an earlier returned match, and — when
every returned match keeps its suppression window inside the surface — any two
returned matches differ by more than half the template height in rows or half the
template width in columns; (ii) for a frame containing exactly N pairwise
non-overlapping occurrences, each scoring strictly above the threshold (not merely
at it) and each lying at least half a template away from the search-region border,
with a threshold in [0, 1), the probe terminates and returns exactly N matches. -/
theorem C3_multi_match_amended :
    (∀ (env : Env) (fuel : Nat) (image : Frame) (path : String)
        (bb : Option BoundingBox) (prec : ℚ) (t : Template) (l : List ImageSearchResult),
        0 ≤ prec → env.loadImage path = some t →
        0 < (env.matchTemplate image t bb).rows → 0 < (env.matchTemplate image t bb).cols →
        (get_all_on_screen env fuel image path bb prec).1 = some l →
        suppressionSeparated (env.matchTemplate image t bb).rows
          (env.matchTemplate image t bb).cols t.height t.width
          (bboxOffX bb) (bboxOffY bb) l ∧
        ((∀ r ∈ l, interiorWindow (env.matchTemplate image t bb).rows
            (env.matchTemplate image t bb).cols t.height t.width
            (matchPos (bboxOffX bb) (bboxOffY bb) r)) →
          halfWindowSeparated t.height t.width (bboxOffX bb) (bboxOffY bb) l))
    ∧
    (∀ (env : Env) (image : Frame) (path : String) (bb : Option BoundingBox)
        (prec : ℚ) (t : Template) (Q : List (Nat × Nat)),
        0 ≤ prec → prec < 1 → env.loadImage path = some t →
        0 < t.height → 0 < t.width → Q.Nodup →
        0 < (env.matchTemplate image t bb).rows →
        0 < (env.matchTemplate image t bb).cols →
        (∀ p ∈ Q, interiorWindow (env.matchTemplate image t bb).rows
          (env.matchTemplate image t bb).cols t.height t.width p) →
        (∀ p ∈ Q, prec < (env.matchTemplate image t bb).val p.1 p.2) →
        (∀ r c, r < (env.matchTemplate image t bb).rows →
          c < (env.matchTemplate image t bb).cols → (r, c) ∉ Q →
          (env.matchTemplate image t bb).val r c ≤ prec) →
        List.Pairwise (boxDisjoint t.height t.width) Q →
        ∃ l, (get_all_on_screen env (Q.length + 1) image path bb prec).1 = some l ∧
          l.length = Q.length) := by
  constructor
  · intro env fuel image path bb prec t l hprec hload h0r h0c hsome
    by_cases hlt : prec < 1
    · rw [get_all_on_screen_eq_loop env fuel image path bb prec t hload hlt] at hsome
      have hsound := getAllLoop_sound t.height t.width prec (bboxOffX bb) (bboxOffY bb)
        hprec fuel (env.matchTemplate image t bb) l h0r h0c hsome
      refine ⟨hsound.2, ?_⟩
      intro hintall
      unfold halfWindowSeparated
      unfold suppressionSeparated at hsound
      have hpw := hsound.2
      refine List.Pairwise.imp_of_mem ?_ hpw
      intro a b ha hb hnz
      have hint_a := hintall a ha
      rw [zeroSet_iff_of_interior hint_a] at hnz
      have hd1 := Nat.dist
      simp only [Nat.dist]
      omega
    · rw [get_all_on_screen_eq_empty env fuel image path bb prec t hload hlt] at hsome
      have hl : l = [] := by
        injection hsome with hh
        exact hh.symm
      subst hl
      exact ⟨List.Pairwise.nil, fun _ => List.Pairwise.nil⟩
  · intro env image path bb prec t Q hprec hlt hload hth htw hnodup h0r h0c hint hval
      hother hpair
    obtain ⟨l, hl, hlen⟩ := getAllLoop_exact t.height t.width prec (bboxOffX bb)
      (bboxOffY bb) hth htw hprec Q.length Q (env.matchTemplate image t bb) rfl hnodup
      h0r h0c hint hval hother hpair
    refine ⟨l, ?_, hlen⟩
    rw [get_all_on_screen_eq_loop env (Q.length + 1) image path bb prec t hload hlt]
    exact hl

/-- Witness for C3 (amended), part (ii): one interior occurrence of a 1×1 template
scoring 1 on a 1×1 surface at threshold 0.9 is recovered as exactly one match. -/
theorem C3_multi_match_amended_witness :
    ∃ l, (get_all_on_screen unitPeakEnv 2 ⟨0⟩
        "alune/images/traits/heavenly.png" none (mkRat 9 10)).1 = some l ∧
      l.length = 1 := by
  have h := C3_multi_match_amended.2 unitPeakEnv ⟨0⟩ "alune/images/traits/heavenly.png"
    none (mkRat 9 10)
    { id := "alune/images/traits/heavenly.png", height := 1, width := 1 }
    [(0, 0)] (by decide) (by decide) rfl (by decide) (by decide) (by decide) (by decide)
    (by decide) (by decide) (by decide)
    (fun r c hr hc hmem => by
      have hr1 : r < 1 := hr
      have hc1 : c < 1 := hc
      have hr0 : r = 0 := by omega
      have hc0 : c = 0 := by omega
      subst hr0
      subst hc0
      simp at hmem)
    (by simp)
  exact h

lemma chain_step {β : Type} (c : Prop) [Decidable c] (r : β) (restL restR : Option β)
    (h : restL = restR) :
    (if c then some r else restL) =
      (match (if c then some r else none : Option β) with
       | some b => some b
       | none => restR) := by
  by_cases hc : c
  · rw [if_pos hc, if_pos hc]
  · rw [if_neg hc, if_neg hc]
    exact h

lemma chain_step_map {α β : Type} (o : Option α) (g : α → β) (restL restR : Option β)
    (h : restL = restR) :
    (match o with | some a => some (g a) | none => restL) =
      (match o.map g with | some b => some b | none => restR) := by
  cases o
  · exact h
  · rfl

/-- C1: for every frame, the state classifier equals first-satisfied-wins evaluation
of the spec's fixed-priority ordered rule list — choice-confirmation; loading;
main-menu (play present and back absent); mode-select (payload carries the mode
icon's location); queue-missed; lobby (close-lobby and play); in-match (composition
or items); post-match variant A (back and variant continue); post-match variant B
(first place and back) — returning the unknown (no-state) result when no rule is
satisfied.  In particular, for any two rules simultaneously satisfiable by one
frame, the earlier one in this order wins. -/
theorem C1_classifier_priority_order (env : Env) (shot : Frame) (config : AluneConfig) :
    get_game_state env shot config = classifySpec env shot config := by
  unfold get_game_state classifySpec classifierRules
  simp only [applyRules, ruleChoiceConfirm, ruleLoading, ruleMainMenu, ruleChooseMode,
    ruleQueueMissed, ruleLobby, ruleInGame, rulePostGameVariant, rulePostGame]
  cases h1 : (probeButton env shot Button.check_choice).isSome with
  | true => simp
  | false =>
  cases h2 : (probeImage env shot Image.RITO_LOGO).isSome with
  | true => simp
  | false =>
  cases h3 : (probeImage env shot Button.play.image_path).isSome
      && !(probeImage env shot Image.BACK).isSome with
  | true => simp
  | false =>
  cases h4 : probeImage env shot (game_mode_image config) with
  | some image_result => simp
  | none =>
  cases h5 : (probeButton env shot Button.check).isSome with
  | true => simp
  | false =>
  cases h6 : (probeImage env shot Image.CLOSE_LOBBY).isSome
      && (probeButton env shot Button.play).isSome with
  | true => simp
  | false =>
  cases h7 : (probeImage env shot Image.COMPOSITION).isSome
      || (probeImage env shot Image.ITEMS).isSome with
  | true => simp
  | false =>
  cases h8 : (probeImage env shot Image.BACK).isSome
      && (probeButton env shot Button.dawn_of_heroes_continue).isSome with
  | true => simp
  | false =>
  cases h9 : (probeImage env shot Image.FIRST_PLACE).isSome
      && (probeImage env shot Image.BACK).isSome with
  | true => simp
  | false =>
  simp

lemma plainClickOfOrSleep_weaken {l : List ClickButton} {a : Act}
    (h : plainClickOfOrSleep l a) : (∃ b, a = Act.clickPlain b) ∨ ∃ t, a = Act.sleep t := by
  rcases h with ⟨b, _, hb⟩ | ht
  · exact Or.inl ⟨b, hb⟩
  · exact Or.inr ht

lemma plainClickOfOrSleep_mono {l₁ l₂ : List ClickButton} {a : Act}
    (hsub : ∀ b ∈ l₁, b ∈ l₂) (h : plainClickOfOrSleep l₁ a) : plainClickOfOrSleep l₂ a := by
  rcases h with ⟨b, hb, hab⟩ | ht
  · exact Or.inl ⟨b, hsub b hb, hab⟩
  · exact Or.inr ht

lemma not_surrender_of_plain {a : Act}
    (h : (∃ b, a = Act.clickPlain b) ∨ ∃ t, a = Act.sleep t) : ¬ isSurrenderAct a := by
  rcases h with ⟨b, rfl⟩ | ⟨t, rfl⟩ <;> simp [isSurrenderAct]

lemma not_surrender_return_to_board :
    ¬ isSurrenderAct (Act.clickImage Button.return_to_board) := by decide

lemma not_surrender_choose_one_hidden :
    ¬ isSurrenderAct (Act.clickImage Button.choose_one_hidden) := by decide

lemma not_surrender_choose_one :
    ¬ isSurrenderAct (Act.clickImage Button.choose_one) := by decide

lemma not_surrender_buy_xp :
    ¬ isSurrenderAct (Act.clickImage Button.buy_xp) := by decide

lemma not_surrender_bbox (bb : BoundingBox) :
    ¬ isSurrenderAct (Act.clickBoundingBox bb) := by simp [isSurrenderAct]

lemma not_surrender_sleep (t : ℚ) : ¬ isSurrenderAct (Act.sleep t) := by
  simp [isSurrenderAct]

lemma mem_ite_fst {β : Type} {c : Prop} [Decidable c] {p q : List Act × β} {a : Act}
    (h : a ∈ (if c then p else q).1) : a ∈ p.1 ∨ a ∈ q.1 := by
  by_cases hc : c
  · rw [if_pos hc] at h; exact Or.inl h
  · rw [if_neg hc] at h; exact Or.inr h

lemma rollAugments_shape (rng : Rng) (l : List ClickButton) :
    ∀ (s : EngineSt), ∀ a ∈ (rollAugments rng l s).1, plainClickOfOrSleep l a := by
  induction l with
  | nil => intro s a ha; cases ha
  | cons b rest ih =>
    intro s a ha
    simp only [rollAugments] at ha
    rcases List.mem_append.mp ha with h | h
    · rcases List.mem_append.mp h with h2 | h2
      · rcases hcoin : rng.bit s.rngCtr with _ | _
        · rw [hcoin] at h2
          simp at h2
        · rw [hcoin] at h2
          simp at h2
          exact Or.inl ⟨b, List.mem_cons_self b rest, h2⟩
      · simp at h2
        exact Or.inr ⟨1, h2⟩
    · exact plainClickOfOrSleep_mono (fun c hc => List.mem_cons_of_mem b hc)
        (ih (bumpRng s) a h)

lemma getD_augments_mem (i : Nat) :
    Button.get_augments.getD i Button.augment_one ∈ Button.get_augments := by
  match i with
  | 0 => decide
  | 1 => decide
  | 2 => decide
  | n + 3 =>
    have hlen : Button.get_augments.length = 3 := rfl
    rw [List.getD_eq_default]
    · decide
    · omega

lemma handle_augments_shape (env : Env) (shot : Frame) (rng : Rng) (s : EngineSt) :
    ∀ a ∈ (handle_augments env shot rng s).1,
      plainClickOfOrSleep
        (rng.shuffleCards s.rngCtr Button.get_augment_rolls ++ Button.get_augments) a := by
  intro a ha
  unfold handle_augments at ha
  by_cases hp : ((get_on_screen env shot Image.PICK_AUGMENT none defaultPrecision).1).isSome
  · rw [if_pos hp] at ha
    simp only [List.append_assoc, List.mem_append] at ha
    rcases ha with h | h | h
    · exact plainClickOfOrSleep_mono (fun c hc => List.mem_append_left _ hc)
        (rollAugments_shape rng _ _ a h)
    · simp at h
      exact Or.inr ⟨2, h⟩
    · rcases List.mem_cons.mp h with h2 | h2
      · exact Or.inl ⟨_, List.mem_append_right _ (getD_augments_mem _), h2⟩
      · simp at h2
        exact Or.inr ⟨1, h2⟩
  · rw [if_neg hp] at ha
    cases ha

lemma buyStoreCards_shape (rng : Rng) (cards : List ClickButton)
    (l : List ImageSearchResult) :
    ∀ (s : EngineSt), ∀ a ∈ (buyStoreCards rng cards l s).1,
      plainClickOfOrSleep cards a := by
  induction l with
  | nil => intro s a ha; cases ha
  | cons r rest ih =>
    intro s a ha
    simp only [buyStoreCards] at ha
    rcases List.mem_append.mp ha with h | h
    · rcases List.mem_append.mp h with h2 | h2
      · cases hf : List.find? (fun card => card.click_box.is_inside r.get_middle) cards with
        | none =>
          simp only [hf] at h2
          cases h2
        | some card =>
          simp only [hf] at h2
          simp at h2
          exact Or.inl ⟨card, List.mem_of_find?_eq_some hf, h2⟩
      · simp at h2
        exact Or.inr ⟨_, h2⟩
    · exact ih (bumpRng s) a h

lemma shopTraits_shape (env : Env) (rng : Rng) (fuel : Nat) (shot : Frame) :
    ∀ (traits : List String) (s : EngineSt) (out : List Act × EngineSt),
      shopTraits env rng fuel shot traits s = some out →
      ∀ a ∈ out.1, ∃ k, plainClickOfOrSleep (rng.shuffleCards k Button.get_store_cards) a := by
  intro traits
  induction traits with
  | nil =>
    intro s out h a ha
    simp only [shopTraits] at h
    cases h
    cases ha
  | cons trait rest ih =>
    intro s out h a ha
    simp only [shopTraits] at h
    cases hres : (get_all_on_screen env fuel shot trait (some shopRegion) (mkRat 9 10)).1 with
    | none =>
      simp only [hres] at h
      cases h
    | some results =>
      simp only [hres] at h
      cases results with
      | nil => exact ih s out h a ha
      | cons r rs =>
        cases hrest : shopTraits env rng fuel shot rest
            (buyStoreCards rng (rng.shuffleCards s.rngCtr Button.get_store_cards) (r :: rs)
              (bumpRng s)).2 with
        | none =>
          simp only [hrest] at h
          cases h
        | some tail =>
          simp only [hrest] at h
          cases h
          rcases List.mem_append.mp ha with hmem | hmem
          · exact ⟨s.rngCtr, buyStoreCards_shape rng _ (r :: rs) (bumpRng s) a hmem⟩
          · exact ih _ tail hrest a hmem

lemma buy_from_shop_shape (env : Env) (dev : Nat → Frame) (cfg : AluneConfig)
    (rng : Rng) (fuel : Nat) (s : EngineSt) (out : List Act × EngineSt)
    (h : buy_from_shop env dev cfg rng fuel s = some out) :
    ∀ a ∈ out.1, ∃ k, plainClickOfOrSleep (rng.shuffleCards k Button.get_store_cards) a :=
  shopTraits_shape env rng fuel (dev s.screenCtr) cfg.get_traits (bumpScreen s) out h

lemma check_surrender_state_disabled (env : Env) (dev : Nat → Frame) (cfg : AluneConfig)
    (rng : Rng) (hcfg : cfg.should_surrender = false) (shot : Frame) (s : EngineSt) :
    check_surrender_state env dev cfg rng shot s = (false, [], s) := by
  unfold check_surrender_state
  rw [hcfg]
  rfl

lemma check_surrender_state_shape (env : Env) (dev : Nat → Frame) (cfg : AluneConfig)
    (rng : Rng) (shot : Frame) (s : EngineSt) :
    ∀ a ∈ (check_surrender_state env dev cfg rng shot s).2.1, surrOrSleep a := by
  intro a ha
  unfold check_surrender_state at ha
  by_cases hs : cfg.should_surrender = true
  · rw [if_pos hs] at ha
    by_cases hc : ((get_on_screen env shot Image.COLLAPSE_TOP_BAR none
        defaultPrecision).1).isSome
    · rw [if_pos hc] at ha
      by_cases hph : ((get_on_screen env shot Image.PHASE_3_2_FULL none
          defaultPrecision).1).isSome
      · rw [if_pos hph] at ha
        simp at ha
        exact Or.inr ⟨_, ha⟩
      · rw [if_neg hph] at ha
        cases ha
    · rw [if_neg hc] at ha
      by_cases hph : ((get_on_screen env (dev s.screenCtr) Image.PHASE_3_2_FULL none
          defaultPrecision).1).isSome
      · rw [if_pos hph] at ha
        simp at ha
        rcases ha with h | h | h
        · exact Or.inl (Or.inl h)
        · exact Or.inr ⟨1, h⟩
        · exact Or.inr ⟨_, h⟩
      · rw [if_neg hph] at ha
        simp at ha
        rcases ha with h | h
        · exact Or.inl (Or.inl h)
        · exact Or.inr ⟨1, h⟩
  · rw [if_neg hs] at ha
    cases ha

lemma surrender_game_acts_shape : ∀ a ∈ surrender_game_acts, surrOrSleep a := by
  intro a ha
  unfold surrender_game_acts at ha
  simp at ha
  rcases ha with h | h | h | h | h | h
  · exact Or.inl (by rw [h]; unfold isSurrenderAct; tauto)
  · exact Or.inr ⟨_, h⟩
  · exact Or.inl (by rw [h]; unfold isSurrenderAct; tauto)
  · exact Or.inr ⟨_, h⟩
  · exact Or.inl (by rw [h]; unfold isSurrenderAct; tauto)
  · exact Or.inr ⟨_, h⟩

lemma xpStep_cases (env : Env) (cfg : AluneConfig) (rng : Rng) (shot2 : Frame)
    (s2 : EngineSt) :
    (xpStep env cfg rng shot2 s2).1 = [] ∨
    (xpStep env cfg rng shot2 s2).1 = [Act.clickImage Button.buy_xp, Act.sleep 1] := by
  unfold xpStep
  by_cases h1 : ((get_button_on_screen env shot2 Button.buy_xp defaultPrecision).1).isSome
  · rw [if_pos h1]
    by_cases h2 : rng.intR s2.rngCtr 1 100 ≤ cfg.get_chance_to_buy_xp
    · rw [if_pos h2]; exact Or.inr rfl
    · rw [if_neg h2]; exact Or.inl rfl
  · rw [if_neg h1]; exact Or.inl rfl

lemma hiddenStep_cases (env : Env) (dev : Nat → Frame) (screenshot : Frame)
    (s1 : EngineSt) :
    (hiddenStep env dev screenshot s1).1 = [] ∨
    (hiddenStep env dev screenshot s1).1 =
      [Act.clickImage Button.choose_one_hidden, Act.sleep 2] := by
  unfold hiddenStep
  by_cases h1 : ((get_button_on_screen env screenshot Button.choose_one_hidden
      choicePromptPrecision).1).isSome
  · rw [if_pos h1]; exact Or.inr rfl
  · rw [if_neg h1]; exact Or.inl rfl

lemma not_surrender_xpStep (env : Env) (cfg : AluneConfig) (rng : Rng) (shot2 : Frame)
    (s2 : EngineSt) : ∀ a ∈ (xpStep env cfg rng shot2 s2).1, ¬ isSurrenderAct a := by
  intro a ha
  rcases xpStep_cases env cfg rng shot2 s2 with he | he
  · rw [he] at ha; cases ha
  · rw [he] at ha
    simp at ha
    rcases ha with h2 | h2
    · rw [h2]; exact not_surrender_buy_xp
    · rw [h2]; exact not_surrender_sleep 1

lemma not_surrender_hiddenStep (env : Env) (dev : Nat → Frame) (screenshot : Frame)
    (s1 : EngineSt) :
    ∀ a ∈ (hiddenStep env dev screenshot s1).1, ¬ isSurrenderAct a := by
  intro a ha
  rcases hiddenStep_cases env dev screenshot s1 with he | he
  · rw [he] at ha; cases ha
  · rw [he] at ha
    simp at ha
    rcases ha with h2 | h2
    · rw [h2]; exact not_surrender_choose_one_hidden
    · rw [h2]; exact not_surrender_sleep 2

lemma lateSteps_decomp (env : Env) (dev : Nat → Frame) (cfg : AluneConfig) (rng : Rng)
    (fuel : Nat) (shot2 : Frame) (s2 : EngineSt) (out : List Act × EngineSt)
    (h : lateSteps env dev cfg rng fuel shot2 s2 = some out) :
    ∃ shop surrTail,
      buy_from_shop env dev cfg rng fuel (xpStep env cfg rng shot2 s2).2 = some shop ∧
      out.1 = (xpStep env cfg rng shot2 s2).1 ++ shop.1 ++ surrTail ∧
      (∀ a ∈ surrTail, surrOrSleep a) := by
  simp only [lateSteps] at h
  split at h
  · cases h
  · rename_i shop hshop
    split at h
    · cases h
      refine ⟨shop,
        (check_surrender_state env dev cfg rng shot2 shop.2).2.1 ++ surrender_game_acts,
        hshop, by simp [List.append_assoc], ?_⟩
      intro a ha
      rcases List.mem_append.mp ha with hm | hm
      · exact check_surrender_state_shape env dev cfg rng shot2 shop.2 a hm
      · exact surrender_game_acts_shape a hm
    · cases h
      refine ⟨shop, (check_surrender_state env dev cfg rng shot2 shop.2).2.1,
        hshop, rfl, ?_⟩
      intro a ha
      exact check_surrender_state_shape env dev cfg rng shot2 shop.2 a ha

lemma lateSteps_disabled_no_surrender (env : Env) (dev : Nat → Frame) (cfg : AluneConfig)
    (rng : Rng) (fuel : Nat) (shot2 : Frame) (s2 : EngineSt) (out : List Act × EngineSt)
    (hcfg : cfg.should_surrender = false)
    (h : lateSteps env dev cfg rng fuel shot2 s2 = some out) :
    ∀ a ∈ out.1, ¬ isSurrenderAct a := by
  simp only [lateSteps] at h
  split at h
  · cases h
  · rename_i shop hshop
    rw [check_surrender_state_disabled env dev cfg rng hcfg] at h
    rw [if_neg (by simp)] at h
    cases h
    intro a ha
    rcases List.mem_append.mp ha with hm | hm
    · rcases List.mem_append.mp hm with hm2 | hm2
      · exact not_surrender_xpStep env cfg rng shot2 s2 a hm2
      · exact not_surrender_of_plain
          (plainClickOfOrSleep_weaken
            ((buy_from_shop_shape env dev cfg rng fuel _ shop hshop a hm2).choose_spec))
    · cases hm

lemma take_game_decision_no_surrender (env : Env) (dev : Nat → Frame) (cfg : AluneConfig)
    (rng : Rng) (fuel : Nat) (s : EngineSt) (out : List Act × EngineSt)
    (hcfg : cfg.should_surrender = false)
    (h : take_game_decision env dev cfg rng fuel s = some out) :
    ∀ a ∈ out.1, ¬ isSurrenderAct a := by
  simp only [take_game_decision] at h
  split at h
  · split at h
    · cases h
      intro a ha
      simp at ha
      rcases ha with h2 | h2 | h2 | h2 | h2
      · rw [h2]; exact not_surrender_return_to_board
      · rw [h2]; exact not_surrender_sleep 1
      · rw [h2]; exact not_surrender_return_to_board
      · rw [h2]; exact not_surrender_sleep 2
      · rw [h2]; exact not_surrender_bbox carouselRegion
    · cases h
      intro a ha
      simp at ha
      rcases ha with h2 | h2
      · rw [h2]; exact not_surrender_return_to_board
      · rw [h2]; exact not_surrender_sleep 1
  · split at h
    · cases h
      intro a ha
      rcases List.mem_append.mp ha with hm | hm
      · rcases List.mem_append.mp hm with hm2 | hm2
        · exact not_surrender_of_plain
            (plainClickOfOrSleep_weaken (handle_augments_shape env _ rng _ a hm2))
        · exact not_surrender_hiddenStep env dev _ _ a hm2
      · simp at hm
        rcases hm with h2 | h2
        · rw [h2]; exact not_surrender_choose_one
        · rw [h2]; exact not_surrender_sleep 1
    · split at h
      · cases h
      · rename_i late hlate
        cases h
        intro a ha
        rcases List.mem_append.mp ha with hm | hm
        · rcases List.mem_append.mp hm with hm2 | hm2
          · exact not_surrender_of_plain
              (plainClickOfOrSleep_weaken (handle_augments_shape env _ rng _ a hm2))
          · exact not_surrender_hiddenStep env dev _ _ a hm2
        · exact lateSteps_disabled_no_surrender env dev cfg rng fuel _ _ late hcfg
            hlate a hm

/-- C8: with surrender disabled in the configuration, the surrender branch never
fires: over any number of decision-engine ticks, no surrender-related action
(expand-top-bar click, back, confirm-surrender click, confirm-again click) is ever
performed, regardless of screen content, rng draws, and shop-loop fuel. -/
theorem C8_surrender_disabled_never_fires (env : Env) (dev : Nat → Frame)
    (cfg : AluneConfig) (rng : Rng) (fuel : Nat) :
    ∀ (n : Nat) (s : EngineSt) (out : List Act × EngineSt),
      cfg.should_surrender = false →
      runTicks env dev cfg rng fuel n s = some out →
      ∀ a ∈ out.1, ¬ isSurrenderAct a := by
  intro n
  induction n with
  | zero =>
    intro s out _ h
    simp only [runTicks] at h
    cases h
    intro a ha
    cases ha
  | succ m ih =>
    intro s out hcfg h
    simp only [runTicks] at h
    split at h
    · cases h
    · rename_i tick htick
      split at h
      · cases h
      · rename_i tail htail
        cases h
        intro a ha
        rcases List.mem_append.mp ha with hm | hm
        · exact take_game_decision_no_surrender env dev cfg rng fuel s tick hcfg htick a hm
        · exact ih _ tail hcfg htail a hm

/-- Witness for C8: one concrete tick (augment offer and buy-XP visible, surrender
disabled) produces clicks and sleeps; the count of surrender-related actions among
them is zero. -/
theorem C8_surrender_disabled_never_fires_witness :
    List.countP (fun a => decide (isSurrenderAct a))
      [Act.sleep 1, Act.sleep 1, Act.sleep 1, Act.sleep 2,
       Act.clickPlain Button.augment_one, Act.sleep 1,
       Act.clickImage Button.buy_xp, Act.sleep 1] = 0 := by
  rw [List.countP_eq_zero]
  intro a ha
  simp only [decide_eq_true_eq]
  exact C8_surrender_disabled_never_fires augmentXpEnv constDev plainCfg idRng 1 1 ⟨0, 0⟩
    ([Act.sleep 1, Act.sleep 1, Act.sleep 1, Act.sleep 2,
      Act.clickPlain Button.augment_one, Act.sleep 1,
      Act.clickImage Button.buy_xp, Act.sleep 1], ⟨6, 2⟩)
    (by decide) (by decide) a ha

/-- C9: classification is deterministic — the classification step of the loop
depends only on the captured frame (with the template store and configuration held
fixed): for any two rng oracles, any two machine states, and any two frame streams
that deliver the same frame, the returned ApplicationState and payload coincide.
The explicit randomization points all live in the decision functions, which
`get_game_state` never consumes. -/
theorem C9_classification_deterministic (env : Env) (cfg : AluneConfig)
    (devA devB : Nat → Frame) (rngA rngB : Rng) (sA sB : EngineSt)
    (hframe : devA sA.screenCtr = devB sB.screenCtr) :
    (classify_in_loop env devA cfg rngA sA).1 = (classify_in_loop env devB cfg rngB sB).1 := by
  unfold classify_in_loop
  rw [hframe]

/-- Witness for C9: two runs with different rng oracles and draw counters classify
the same frame identically. -/
theorem C9_classification_deterministic_witness :
    (classify_in_loop augmentXpEnv constDev plainCfg idRng ⟨0, 0⟩).1 =
      (classify_in_loop augmentXpEnv constDev plainCfg
        { bit := fun _ => true, intR := fun _ _ b => b, ratR := fun _ _ b => b
          shuffleCards := fun _ l => l.reverse } ⟨99, 0⟩).1 :=
  C9_classification_deterministic augmentXpEnv plainCfg constDev constDev idRng
    { bit := fun _ => true, intR := fun _ _ b => b, ratR := fun _ _ b => b
      shuffleCards := fun _ l => l.reverse } ⟨0, 0⟩ ⟨99, 0⟩ rfl

lemma not_xp_of_plain {a : Act}
    (h : (∃ b, a = Act.clickPlain b) ∨ ∃ t, a = Act.sleep t) : ¬ isXpClick a := by
  rcases h with ⟨b, rfl⟩ | ⟨t, rfl⟩ <;> simp [isXpClick]

lemma not_xp_sleep (t : ℚ) : ¬ isXpClick (Act.sleep t) := by
  simp [isXpClick]

lemma not_xp_choose_one_hidden :
    ¬ isXpClick (Act.clickImage Button.choose_one_hidden) := by decide

lemma not_xp_choose_one : ¬ isXpClick (Act.clickImage Button.choose_one) := by decide

lemma not_store_clickImage (b : ImageButton) :
    ¬ isStoreCardClick (Act.clickImage b) := by
  rintro ⟨b2, _, heq⟩
  cases heq

lemma not_store_sleep (t : ℚ) : ¬ isStoreCardClick (Act.sleep t) := by
  rintro ⟨b2, _, heq⟩
  cases heq

lemma not_store_bbox (bb : BoundingBox) :
    ¬ isStoreCardClick (Act.clickBoundingBox bb) := by
  rintro ⟨b2, _, heq⟩
  cases heq

lemma not_store_of_plain_disjoint {l : List ClickButton} {a : Act}
    (hd : ∀ b ∈ l, b ∉ Button.get_store_cards)
    (h : plainClickOfOrSleep l a) : ¬ isStoreCardClick a := by
  rcases h with ⟨b, hb, rfl⟩ | ⟨t, rfl⟩
  · rintro ⟨b2, hb2, heq⟩
    cases heq
    exact hd b hb hb2
  · rintro ⟨b2, _, heq⟩
    cases heq

lemma augment_pool_not_store :
    ∀ b ∈ Button.get_augment_rolls ++ Button.get_augments,
      b ∉ Button.get_store_cards := by decide

lemma handle_augments_not_store (env : Env) (shot : Frame) (rng : Rng) (s : EngineSt)
    (hwf : Rng.Wf rng) :
    ∀ a ∈ (handle_augments env shot rng s).1, ¬ isStoreCardClick a := by
  intro a ha
  refine not_store_of_plain_disjoint ?_ (handle_augments_shape env shot rng s a ha)
  intro b hb
  rcases List.mem_append.mp hb with hm | hm
  · exact augment_pool_not_store b
      (List.mem_append_left _ ((hwf s.rngCtr Button.get_augment_rolls).mem_iff.mp hm))
  · exact augment_pool_not_store b (List.mem_append_right _ hm)

lemma handle_augments_not_xp (env : Env) (shot : Frame) (rng : Rng) (s : EngineSt) :
    ∀ a ∈ (handle_augments env shot rng s).1, ¬ isXpClick a := by
  intro a ha
  exact not_xp_of_plain
    (plainClickOfOrSleep_weaken (handle_augments_shape env shot rng s a ha))

lemma hiddenStep_not_xp (env : Env) (dev : Nat → Frame) (screenshot : Frame)
    (s1 : EngineSt) : ∀ a ∈ (hiddenStep env dev screenshot s1).1, ¬ isXpClick a := by
  intro a ha
  rcases hiddenStep_cases env dev screenshot s1 with he | he
  · rw [he] at ha; cases ha
  · rw [he] at ha
    simp at ha
    rcases ha with h2 | h2
    · rw [h2]; exact not_xp_choose_one_hidden
    · rw [h2]; exact not_xp_sleep 2

lemma hiddenStep_not_store (env : Env) (dev : Nat → Frame) (screenshot : Frame)
    (s1 : EngineSt) :
    ∀ a ∈ (hiddenStep env dev screenshot s1).1, ¬ isStoreCardClick a := by
  intro a ha
  rcases hiddenStep_cases env dev screenshot s1 with he | he
  · rw [he] at ha; cases ha
  · rw [he] at ha
    simp at ha
    rcases ha with h2 | h2
    · rw [h2]; exact not_store_clickImage _
    · rw [h2]; exact not_store_sleep 2

lemma xpStep_not_store (env : Env) (cfg : AluneConfig) (rng : Rng) (shot2 : Frame)
    (s2 : EngineSt) : ∀ a ∈ (xpStep env cfg rng shot2 s2).1, ¬ isStoreCardClick a := by
  intro a ha
  rcases xpStep_cases env cfg rng shot2 s2 with he | he
  · rw [he] at ha; cases ha
  · rw [he] at ha
    simp at ha
    rcases ha with h2 | h2
    · rw [h2]; exact not_store_clickImage _
    · rw [h2]; exact not_store_sleep 1

lemma surrOrSleep_not_xp {a : Act} (h : surrOrSleep a) : ¬ isXpClick a := by
  rcases h with hs | ⟨t, rfl⟩
  · intro hx
    have hx2 : a = Act.clickImage Button.buy_xp := hx
    rw [hx2] at hs
    exact not_surrender_buy_xp hs
  · exact not_xp_sleep t

lemma rollAugments_screen (rng : Rng) (l : List ClickButton) :
    ∀ s : EngineSt, (rollAugments rng l s).2.screenCtr = s.screenCtr := by
  induction l with
  | nil => intro s; rfl
  | cons b rest ih =>
    intro s
    simp only [rollAugments]
    exact ih (bumpRng s)

lemma handle_augments_screen (env : Env) (shot : Frame) (rng : Rng) (s : EngineSt) :
    (handle_augments env shot rng s).2.screenCtr = s.screenCtr := by
  unfold handle_augments
  by_cases hp : ((get_on_screen env shot Image.PICK_AUGMENT none defaultPrecision).1).isSome
  · rw [if_pos hp]
    exact rollAugments_screen rng _ (bumpRng s)
  · rw [if_neg hp]

lemma hiddenStep_choiceShot (env : Env) (dev : Nat → Frame) (rng : Rng) (s : EngineSt) :
    (hiddenStep env dev (dev s.screenCtr)
      (handle_augments env (dev s.screenCtr) rng (bumpScreen s)).2).2.1 =
      choiceShot env dev s := by
  unfold hiddenStep choiceShot
  by_cases hp : ((get_button_on_screen env (dev s.screenCtr) Button.choose_one_hidden
      choicePromptPrecision).1).isSome
  · rw [if_pos hp, if_pos hp]
    show dev (handle_augments env (dev s.screenCtr) rng (bumpScreen s)).2.screenCtr =
      dev (s.screenCtr + 1)
    rw [handle_augments_screen]
    rfl
  · rw [if_neg hp, if_neg hp]

lemma split_all_left {P Q : Act → Prop} {L : List Act} (hA : ∀ a ∈ L, P a) :
    ∃ pre suf, L = pre ++ suf ∧ (∀ a ∈ pre, P a) ∧ ∀ a ∈ suf, Q a :=
  ⟨L, [], (List.append_nil L).symm, hA, fun a ha => absurd ha (List.not_mem_nil a)⟩

lemma split_cons_left {P Q : Act → Prop} {A L : List Act}
    (hA : ∀ a ∈ A, P a)
    (hL : ∃ pre suf, L = pre ++ suf ∧ (∀ a ∈ pre, P a) ∧ ∀ a ∈ suf, Q a) :
    ∃ pre suf, A ++ L = pre ++ suf ∧ (∀ a ∈ pre, P a) ∧ ∀ a ∈ suf, Q a := by
  obtain ⟨pre, suf, hEq, h1, h2⟩ := hL
  refine ⟨A ++ pre, suf, by rw [hEq, List.append_assoc], ?_, h2⟩
  intro a ha
  rcases List.mem_append.mp ha with hm | hm
  · exact hA a hm
  · exact h1 a hm

lemma lateSteps_xp_split (env : Env) (dev : Nat → Frame) (cfg : AluneConfig) (rng : Rng)
    (fuel : Nat) (shot2 : Frame) (s2 : EngineSt) (late : List Act × EngineSt)
    (h : lateSteps env dev cfg rng fuel shot2 s2 = some late) :
    ∃ pre suf, late.1 = pre ++ suf ∧
      (∀ a ∈ pre, ¬ isStoreCardClick a ∧ ¬ isSurrenderAct a) ∧
      ∀ a ∈ suf, ¬ isXpClick a := by
  obtain ⟨shop, surrTail, hshop, hdec, hst⟩ :=
    lateSteps_decomp env dev cfg rng fuel shot2 s2 late h
  refine ⟨(xpStep env cfg rng shot2 s2).1, shop.1 ++ surrTail, ?_, ?_, ?_⟩
  · rw [hdec, List.append_assoc]
  · intro a ha
    exact ⟨xpStep_not_store env cfg rng shot2 s2 a ha,
      not_surrender_xpStep env cfg rng shot2 s2 a ha⟩
  · intro a ha
    rcases List.mem_append.mp ha with hm | hm
    · exact not_xp_of_plain (plainClickOfOrSleep_weaken
        ((buy_from_shop_shape env dev cfg rng fuel _ shop hshop a hm).choose_spec))
    · exact surrOrSleep_not_xp (hst a hm)

lemma lateSteps_surr_split (env : Env) (dev : Nat → Frame) (cfg : AluneConfig) (rng : Rng)
    (fuel : Nat) (shot2 : Frame) (s2 : EngineSt) (late : List Act × EngineSt)
    (h : lateSteps env dev cfg rng fuel shot2 s2 = some late) :
    ∃ pre suf, late.1 = pre ++ suf ∧ (∀ a ∈ pre, ¬ isSurrenderAct a) ∧
      ∀ a ∈ suf, surrOrSleep a := by
  obtain ⟨shop, surrTail, hshop, hdec, hst⟩ :=
    lateSteps_decomp env dev cfg rng fuel shot2 s2 late h
  refine ⟨(xpStep env cfg rng shot2 s2).1 ++ shop.1, surrTail, by rw [hdec], ?_, hst⟩
  intro a ha
  rcases List.mem_append.mp ha with hm | hm
  · exact not_surrender_xpStep env cfg rng shot2 s2 a hm
  · exact not_surrender_of_plain (plainClickOfOrSleep_weaken
      ((buy_from_shop_shape env dev cfg rng fuel _ shop hshop a hm).choose_spec))

lemma tick_other_board (env : Env) (dev : Nat → Frame) (cfg : AluneConfig) (rng : Rng)
    (fuel : Nat) (s : EngineSt) (out : List Act × EngineSt)
    (h : take_game_decision env dev cfg rng fuel s = some out)
    (hob : otherBoardFires env dev s) : ∀ a ∈ out.1, isOtherBoardAct a := by
  simp only [take_game_decision] at h
  split at h
  · split at h
    · cases h
      intro a ha
      simp at ha
      rcases ha with h2 | h2 | h2 | h2 | h2 <;> rw [h2]
      · exact Or.inl rfl
      · exact Or.inr (Or.inr ⟨1, rfl⟩)
      · exact Or.inl rfl
      · exact Or.inr (Or.inr ⟨2, rfl⟩)
      · exact Or.inr (Or.inl rfl)
    · cases h
      intro a ha
      simp at ha
      rcases ha with h2 | h2 <;> rw [h2]
      · exact Or.inl rfl
      · exact Or.inr (Or.inr ⟨1, rfl⟩)
  · rename_i hnc
    exact absurd hob hnc

lemma tick_choice_exclusive (env : Env) (dev : Nat → Frame) (cfg : AluneConfig)
    (rng : Rng) (fuel : Nat) (s : EngineSt) (out : List Act × EngineSt)
    (hwf : Rng.Wf rng)
    (h : take_game_decision env dev cfg rng fuel s = some out)
    (hnob : ¬ otherBoardFires env dev s) (hch : choiceFires env dev s) :
    ∀ a ∈ out.1, ¬ isXpClick a ∧ ¬ isStoreCardClick a ∧ ¬ isSurrenderAct a := by
  simp only [take_game_decision] at h
  split at h
  · rename_i hob
    exact absurd hob hnob
  · split at h
    · cases h
      intro a ha
      rcases List.mem_append.mp ha with hm | hm
      · rcases List.mem_append.mp hm with hm2 | hm2
        · exact ⟨handle_augments_not_xp env _ rng _ a hm2,
            handle_augments_not_store env _ rng _ hwf a hm2,
            not_surrender_of_plain (plainClickOfOrSleep_weaken
              (handle_augments_shape env _ rng _ a hm2))⟩
        · exact ⟨hiddenStep_not_xp env dev _ _ a hm2,
            hiddenStep_not_store env dev _ _ a hm2,
            not_surrender_hiddenStep env dev _ _ a hm2⟩
      · simp at hm
        rcases hm with h2 | h2 <;> rw [h2]
        · exact ⟨not_xp_choose_one, not_store_clickImage _, not_surrender_choose_one⟩
        · exact ⟨not_xp_sleep 1, not_store_sleep 1, not_surrender_sleep 1⟩
    · rename_i hnc
      rw [hiddenStep_choiceShot] at hnc
      exact absurd hch hnc

lemma tick_xp_before_shop (env : Env) (dev : Nat → Frame) (cfg : AluneConfig) (rng : Rng)
    (fuel : Nat) (s : EngineSt) (out : List Act × EngineSt) (hwf : Rng.Wf rng)
    (h : take_game_decision env dev cfg rng fuel s = some out) :
    ∃ pre suf, out.1 = pre ++ suf ∧
      (∀ a ∈ pre, ¬ isStoreCardClick a ∧ ¬ isSurrenderAct a) ∧
      ∀ a ∈ suf, ¬ isXpClick a := by
  simp only [take_game_decision] at h
  split at h
  · split at h
    · cases h
      refine split_all_left ?_
      intro a ha
      simp at ha
      rcases ha with h2 | h2 | h2 | h2 | h2 <;> rw [h2]
      · exact ⟨not_store_clickImage _, not_surrender_return_to_board⟩
      · exact ⟨not_store_sleep 1, not_surrender_sleep 1⟩
      · exact ⟨not_store_clickImage _, not_surrender_return_to_board⟩
      · exact ⟨not_store_sleep 2, not_surrender_sleep 2⟩
      · exact ⟨not_store_bbox carouselRegion, not_surrender_bbox carouselRegion⟩
    · cases h
      refine split_all_left ?_
      intro a ha
      simp at ha
      rcases ha with h2 | h2 <;> rw [h2]
      · exact ⟨not_store_clickImage _, not_surrender_return_to_board⟩
      · exact ⟨not_store_sleep 1, not_surrender_sleep 1⟩
  · split at h
    · cases h
      refine split_all_left ?_
      intro a ha
      rcases List.mem_append.mp ha with hm | hm
      · rcases List.mem_append.mp hm with hm2 | hm2
        · exact ⟨handle_augments_not_store env _ rng _ hwf a hm2,
            not_surrender_of_plain (plainClickOfOrSleep_weaken
              (handle_augments_shape env _ rng _ a hm2))⟩
        · exact ⟨hiddenStep_not_store env dev _ _ a hm2,
            not_surrender_hiddenStep env dev _ _ a hm2⟩
      · simp at hm
        rcases hm with h2 | h2 <;> rw [h2]
        · exact ⟨not_store_clickImage _, not_surrender_choose_one⟩
        · exact ⟨not_store_sleep 1, not_surrender_sleep 1⟩
    · split at h
      · cases h
      · rename_i late hlate
        cases h
        refine split_cons_left ?_
          (lateSteps_xp_split env dev cfg rng fuel _ _ late hlate)
        intro a ha
        rcases List.mem_append.mp ha with hm | hm
        · exact ⟨handle_augments_not_store env _ rng _ hwf a hm,
            not_surrender_of_plain (plainClickOfOrSleep_weaken
              (handle_augments_shape env _ rng _ a hm))⟩
        · exact ⟨hiddenStep_not_store env dev _ _ a hm,
            not_surrender_hiddenStep env dev _ _ a hm⟩

lemma tick_surrender_last (env : Env) (dev : Nat → Frame) (cfg : AluneConfig) (rng : Rng)
    (fuel : Nat) (s : EngineSt) (out : List Act × EngineSt)
    (h : take_game_decision env dev cfg rng fuel s = some out) :
    ∃ pre suf, out.1 = pre ++ suf ∧ (∀ a ∈ pre, ¬ isSurrenderAct a) ∧
      ∀ a ∈ suf, surrOrSleep a := by
  simp only [take_game_decision] at h
  split at h
  · split at h
    · cases h
      refine split_all_left ?_
      intro a ha
      simp at ha
      rcases ha with h2 | h2 | h2 | h2 | h2 <;> rw [h2]
      · exact not_surrender_return_to_board
      · exact not_surrender_sleep 1
      · exact not_surrender_return_to_board
      · exact not_surrender_sleep 2
      · exact not_surrender_bbox carouselRegion
    · cases h
      refine split_all_left ?_
      intro a ha
      simp at ha
      rcases ha with h2 | h2 <;> rw [h2]
      · exact not_surrender_return_to_board
      · exact not_surrender_sleep 1
  · split at h
    · cases h
      refine split_all_left ?_
      intro a ha
      rcases List.mem_append.mp ha with hm | hm
      · rcases List.mem_append.mp hm with hm2 | hm2
        · exact not_surrender_of_plain (plainClickOfOrSleep_weaken
            (handle_augments_shape env _ rng _ a hm2))
        · exact not_surrender_hiddenStep env dev _ _ a hm2
      · simp at hm
        rcases hm with h2 | h2 <;> rw [h2]
        · exact not_surrender_choose_one
        · exact not_surrender_sleep 1
    · split at h
      · cases h
      · rename_i late hlate
        cases h
        refine split_cons_left ?_
          (lateSteps_surr_split env dev cfg rng fuel _ _ late hlate)
        intro a ha
        rcases List.mem_append.mp ha with hm | hm
        · exact not_surrender_of_plain (plainClickOfOrSleep_weaken
            (handle_augments_shape env _ rng _ a hm))
        · exact not_surrender_hiddenStep env dev _ _ a hm

/-- C2 counterexample: on a frame showing both the pick-augment offer and the
buy-XP control, the augment step fires (it clicks an augment) and the later
XP-purchase step still acts within the very same tick — so the augment step is not
mutually exclusive with every later step, contrary to the claim. -/
theorem C2_counterexample_augment_then_xp :
    ((get_on_screen augmentXpEnv (constDev 0) Image.PICK_AUGMENT none
        defaultPrecision).1).isSome = true ∧
    take_game_decision augmentXpEnv constDev plainCfg idRng 1 ⟨0, 0⟩ =
      some ([Act.sleep 1, Act.sleep 1, Act.sleep 1, Act.sleep 2,
        Act.clickPlain Button.augment_one, Act.sleep 1,
        Act.clickImage Button.buy_xp, Act.sleep 1], ⟨6, 2⟩) ∧
    Act.clickPlain Button.augment_one ∈
      [Act.sleep 1, Act.sleep 1, Act.sleep 1, Act.sleep 2,
        Act.clickPlain Button.augment_one, Act.sleep 1,
        Act.clickImage Button.buy_xp, Act.sleep 1] ∧
    Act.clickImage Button.buy_xp ∈
      [Act.sleep 1, Act.sleep 1, Act.sleep 1, Act.sleep 2,
        Act.clickPlain Button.augment_one, Act.sleep 1,
        Act.clickImage Button.buy_xp, Act.sleep 1] := by decide

/-- C2 (amended): within one tick of the decision engine, (1) when the other-board
probe fires the tick consists solely of other-board/carousel actions; (2) when the
other-board probe does not fire but the active-choice probe does, the tick performs
no XP purchase, no store-card purchase and no surrender action; (3) every XP
purchase of the tick precedes every store-card purchase and every surrender action
(XP before shop); and (4) the surrender branch runs last: the tick splits into a
surrender-free prefix and a suffix of surrender actions and sleeps.  The augment
and hidden-choice steps, by contrast, are not exclusive with the later steps (see
the counterexample): both XP and shop may also fire in the tick they fire in. -/
theorem C2_tick_exclusivity (env : Env) (dev : Nat → Frame) (cfg : AluneConfig)
    (rng : Rng) (fuel : Nat) (s : EngineSt) (out : List Act × EngineSt)
    (hwf : Rng.Wf rng)
    (h : take_game_decision env dev cfg rng fuel s = some out) :
    (otherBoardFires env dev s → ∀ a ∈ out.1, isOtherBoardAct a) ∧
    (¬ otherBoardFires env dev s → choiceFires env dev s →
      ∀ a ∈ out.1, ¬ isXpClick a ∧ ¬ isStoreCardClick a ∧ ¬ isSurrenderAct a) ∧
    (∃ pre suf, out.1 = pre ++ suf ∧
      (∀ a ∈ pre, ¬ isStoreCardClick a ∧ ¬ isSurrenderAct a) ∧
      ∀ a ∈ suf, ¬ isXpClick a) ∧
    (∃ pre suf, out.1 = pre ++ suf ∧ (∀ a ∈ pre, ¬ isSurrenderAct a) ∧
      ∀ a ∈ suf, surrOrSleep a) :=
  ⟨fun hob => tick_other_board env dev cfg rng fuel s out h hob,
   fun hnob hch => tick_choice_exclusive env dev cfg rng fuel s out hwf h hnob hch,
   tick_xp_before_shop env dev cfg rng fuel s out hwf h,
   tick_surrender_last env dev cfg rng fuel s out h⟩

set_option maxRecDepth 10000 in
/-- Witness for C2: on a frame where both the buy-XP control and a shop card with a
watched trait are visible, the tick performs the XP buy and then the store-card
click, and the amended theorem's split applies to it with the XP click in the
store-free prefix. -/
theorem C2_tick_exclusivity_witness :
    ∃ pre suf,
      ([Act.clickImage Button.buy_xp, Act.sleep 1,
        Act.clickPlain Button.store_card_one, Act.sleep (mkRat 25 100)] : List Act) =
        pre ++ suf ∧
      (∀ a ∈ pre, ¬ isStoreCardClick a ∧ ¬ isSurrenderAct a) ∧
      ∀ a ∈ suf, ¬ isXpClick a :=
  (C2_tick_exclusivity xpShopEnv constDev shopCfg idRng 2 ⟨0, 0⟩
    ([Act.clickImage Button.buy_xp, Act.sleep 1,
      Act.clickPlain Button.store_card_one, Act.sleep (mkRat 25 100)], ⟨3, 2⟩)
    (fun k l => List.Perm.refl l) (by decide)).2.2.1


lemma wait_for_accept_button_never (env : Env) (dev : Nat → Frame)
    (hnever : ∀ n, accept_visible env (dev n) = false) :
    ∀ (k : Nat) (s : EngineSt),
      wait_for_accept_button env dev k s =
        (false, List.replicate k (Act.sleep 2),
          ⟨s.rngCtr, s.screenCtr + k⟩) := by
  intro k
  induction k with
  | zero =>
    intro s
    simp [wait_for_accept_button]
  | succ n ih =>
    intro s
    simp only [wait_for_accept_button]
    rw [if_neg (by simp [hnever s.screenCtr])]
    rw [ih (bumpScreen s)]
    simp [bumpScreen, List.replicate_succ]
    omega

/-- C4 counterexample: with a 5-time-unit timeout and a device that never shows the
accept control, the queue negotiation performs a click — the timeout branch clicks
`Button.exit_lobby` before returning — contradicting "performs no click". -/
theorem C4_counterexample_timeout_click :
    queue blankEnv constDev timeoutCfg 1 1 ⟨0, 0⟩ =
      some ([Act.sleep 2, Act.sleep 2, Act.sleep 2,
        Act.clickImage Button.exit_lobby], QueueResult.timedOut, ⟨0, 3⟩) ∧
    Act.clickImage Button.exit_lobby ∈
      [Act.sleep 2, Act.sleep 2, Act.sleep 2, Act.clickImage Button.exit_lobby] := by
  decide

/-- C4 (amended): for every device trace on which the accept control never becomes
visible, the queue negotiation returns normally (the `asyncio.TimeoutError` is
caught — a recoverable timed-out outcome handed back to the outer loop, never a
fatal error), after polling every 2 time-units for exactly `⌈timeout / 2⌉` polls —
so the abort lands within one polling interval of the configured timeout — and the
actions it performs are those poll sleeps followed by exactly one click, of the
exit-lobby button, in the timeout branch (not zero clicks, as claimed). -/
theorem C4_queue_timeout (env : Env) (dev : Nat → Frame) (cfg : AluneConfig)
    (overlayFuel recFuel : Nat) (s : EngineSt)
    (hnever : ∀ n, accept_visible env (dev n) = false) :
    ∃ sleeps,
      queue env dev cfg overlayFuel (recFuel + 1) s =
        some (sleeps ++ [Act.clickImage Button.exit_lobby], QueueResult.timedOut,
          ⟨s.rngCtr, s.screenCtr + queuePollBudget cfg.get_queue_timeout⟩) ∧
      (∀ a ∈ sleeps, a = Act.sleep 2) ∧
      sleeps.length = queuePollBudget cfg.get_queue_timeout ∧
      cfg.get_queue_timeout ≤ 2 * queuePollBudget cfg.get_queue_timeout ∧
      2 * queuePollBudget cfg.get_queue_timeout < cfg.get_queue_timeout + 2 := by
  refine ⟨List.replicate (queuePollBudget cfg.get_queue_timeout) (Act.sleep 2),
    ?_, ?_, ?_, ?_, ?_⟩
  · simp only [queue]
    rw [wait_for_accept_button_never env dev hnever (queuePollBudget cfg.get_queue_timeout) s]
    rw [if_pos rfl]
  · intro a ha
    exact List.eq_of_mem_replicate ha
  · simp
  · unfold queuePollBudget
    omega
  · unfold queuePollBudget
    omega

/-- Witness for C4: the device that never shows the accept control, with a
5-time-unit timeout — three polls, then the single exit-lobby click and the
timed-out outcome. -/
theorem C4_queue_timeout_witness :
    ∃ sleeps,
      queue blankEnv constDev timeoutCfg 1 (0 + 1) ⟨0, 0⟩ =
        some (sleeps ++ [Act.clickImage Button.exit_lobby], QueueResult.timedOut,
          ⟨0, 0 + queuePollBudget timeoutCfg.get_queue_timeout⟩) ∧
      (∀ a ∈ sleeps, a = Act.sleep 2) ∧
      sleeps.length = queuePollBudget timeoutCfg.get_queue_timeout ∧
      timeoutCfg.get_queue_timeout ≤ 2 * queuePollBudget timeoutCfg.get_queue_timeout ∧
      2 * queuePollBudget timeoutCfg.get_queue_timeout < timeoutCfg.get_queue_timeout + 2 :=
  C4_queue_timeout blankEnv constDev timeoutCfg 1 0 ⟨0, 0⟩
    (fun n => (by decide : accept_visible blankEnv ⟨0⟩ = false))


lemma staleSt_is_stale : (16 : ℚ) - staleSt.latest_frame_ts > 15 := by
  norm_num [staleSt]

/-- C7 counterexample: with screen recording in use and a buffered frame 15+ time
units old (captured at time 0, read at time 16), `get_screen` still returns that
stale frame to its caller — the stale frame IS trusted for classification,
contradicting "never trusted". -/
theorem C7_counterexample_stale_frame_returned :
    ((16 : ℚ) - staleSt.latest_frame_ts > 15) ∧
    (ADB.get_screen recordCfg staleSt 16 true ⟨0⟩).1 = some ⟨7⟩ := by
  refine ⟨staleSt_is_stale, ?_⟩
  unfold ADB.get_screen
  rw [if_pos (by decide : recordCfg.should_use_screen_record = true)]
  simp only [show staleSt.latest_frame = some (⟨7⟩ : Frame) from rfl]
  rw [if_pos staleSt_is_stale]

/-- C7 (amended): with screen recording in use, a buffered frame older than the
15-time-unit freshness window is detected — `get_screen` validates the capture
timestamp, logs the staleness warning, and triggers a restart of the background
capture task (when the old task has exited by the end of the grace sleep, the
final state has a live recorder task with the stop flag cleared) — but the stale
frame is then still returned to the caller, so it is NOT withheld from
classification as the claim states. -/
theorem C7_stale_frame_restart (cfg : AluneConfig) (st : AdbSt) (now : ℚ)
    (oldTaskExits : Bool) (capture f : Frame)
    (huse : cfg.should_use_screen_record = true)
    (hframe : st.latest_frame = some f)
    (hstale : now - st.latest_frame_ts > 15) :
    (ADB.get_screen cfg st now oldTaskExits capture).1 = some f ∧
    (ADB.get_screen cfg st now oldTaskExits capture).2.2 = [LogEvent.warnStaleFrames] ∧
    (oldTaskExits = true →
      (ADB.get_screen cfg st now oldTaskExits capture).2.1.record_task_live = true ∧
      (ADB.get_screen cfg st now oldTaskExits capture).2.1.should_stop_screen_recording
        = false) := by
  have hred : ADB.get_screen cfg st now oldTaskExits capture =
      (some f,
        create_screen_record_task
          { mark_screen_record_for_close st with
            record_task_live :=
              (mark_screen_record_for_close st).record_task_live && !oldTaskExits },
        [LogEvent.warnStaleFrames]) := by
    unfold ADB.get_screen
    rw [if_pos huse]
    simp only [hframe]
    rw [if_pos hstale]
  refine ⟨by rw [hred], by rw [hred], ?_⟩
  intro hexit
  subst hexit
  rw [hred]
  simp [mark_screen_record_for_close, create_screen_record_task]

/-- Witness for C7: the concrete stale state (captured at 0, read at 16, old task
exited): the stale frame 7 is returned, the warning logged, and the recorder
restarted. -/
theorem C7_stale_frame_restart_witness :
    (ADB.get_screen recordCfg staleSt 16 true ⟨0⟩).1 = some ⟨7⟩ ∧
    (ADB.get_screen recordCfg staleSt 16 true ⟨0⟩).2.2 = [LogEvent.warnStaleFrames] ∧
    (true = true →
      (ADB.get_screen recordCfg staleSt 16 true ⟨0⟩).2.1.record_task_live = true ∧
      (ADB.get_screen recordCfg staleSt 16 true ⟨0⟩).2.1.should_stop_screen_recording
        = false) :=
  C7_stale_frame_restart recordCfg staleSt 16 true ⟨0⟩ ⟨7⟩ (by decide) rfl
    staleSt_is_stale

end Alune
